import Mathlib

/-!
Verification development for the route risk evaluation engine of the
safe-routing repository: the `NavigatorAgent` in
`backend/app/agents/navigator.py` (point sampling, deduplication,
single-point risk scoring, batch route scoring) and the best-route
selection in `backend/app/main.py`.

Modelling conventions of this shallow embedding:
* Python floats are modelled as rationals (`ℚ`); all score arithmetic in
  the source is elementary (+, -, *), so the embedding is exact.
* Each external risk source (Analyst vibe check, Solar, Places, and the
  flood / tsunami / landslide hazard services) is modelled by the outcome
  it would produce at the evaluated point: `none` when the service object
  is absent (`self.X is None` / attribute missing), `some (.error e)` when
  the call raises, and `some (.ok v)` when it returns `v`.
* The evaluator is instrumented to also return the list of sources it
  actually invoked (`Src`), so that the gating claims are statable; the
  instrumentation only records at exactly the program points where the
  source performs the corresponding service call.
* Python's `round(x, 4)` is modelled with Mathlib's `round` on
  `x * 10000` (the integer grid cell); Python rounds ties to even while
  `round` rounds them up, a difference only at exact half-grid ties,
  which no claim depends on.
* `"needle" in s` (Python substring test) is modelled by `List.IsInfix`
  on the character lists.
-/

namespace SafeRouting

/-- A geographic point: the `{"lat": ..., "lng": ...}` dicts of the source. -/
structure Pt where
  lat : ℚ
  lng : ℚ
deriving DecidableEq, Repr

/-- The risk-factor categories that `_analyze_single_point` tags results
with; in the source a factor is the string `<category>: <qualifier>`. -/
inductive RiskCat
  | VIBE_RISK
  | SHADOW_RISK
  | SAFETY_BONUS
  | FLOOD_HAZARD
  | TSUNAMI_HAZARD
  | LANDSLIDE_HAZARD
deriving DecidableEq, Repr

/-- The result dict returned by `_analyze_single_point`. -/
structure PointResult where
  lat : ℚ
  lng : ℚ
  score : ℚ
  risks : List (RiskCat × String)
  image_url : Option String
  atmosphere : Option String
deriving DecidableEq, Repr

/-- The external risk sources a point evaluation can invoke. -/
inductive Src
  | analyst
  | solar
  | places
  | flood
  | tsunami
  | landslide
deriving DecidableEq, Repr

/-- Outcome of `analyst.analyze_location_vibe`. -/
structure VibeOutcome where
  safety_score : ℚ
  atmosphere : String
  image_url : Option String
deriving DecidableEq, Repr

/-- The per-point outcomes of the six external sources: `none` models an
absent service object, `some (.error e)` a raised exception, and
`some (.ok v)` a successful return of `v`. -/
structure Sources where
  analyst : Option (Except String VibeOutcome)
  solar : Option (Except String (ℚ × String))
  places : Option (Except String (ℚ × List String))
  flood : Option (Except String (Bool × Option String))
  tsunami : Option (Except String (Bool × Option String))
  landslide : Option (Except String (Bool × Option String))
deriving Repr

/-- `ALERT_TO_HAZARD` of `NavigatorAgent` (navigator.py lines 19-25). -/
def ALERT_TO_HAZARD (alert : String) : Option String :=
  if alert = "大雨警報" then some "flood"
  else if alert = "洪水警報" then some "flood"
  else if alert = "津波警報" then some "tsunami"
  else if alert = "津波注意報" then some "tsunami"
  else if alert = "土砂災害警戒情報" then some "landslide"
  else none

/-- `_is_hazard_alert_active` (navigator.py lines 458-464):
`ALERT_TO_HAZARD.get(alert, "") == hazard_type` for some active alert. -/
def is_hazard_alert_active (active_alerts : List String) (hazard_type : String) : Bool :=
  active_alerts.any (fun alert => ((ALERT_TO_HAZARD alert).getD "") == hazard_type)

/-- Python's substring test `needle in s`. -/
def strContains (s needle : String) : Bool :=
  decide (needle.data <:+: s.data)

/-- Python truthiness-guarded substring test `depth and needle in depth`:
`None` and the empty string are falsy. -/
def depth_has (depth : Option String) (needle : String) : Bool :=
  match depth with
  | none => false
  | some s => !s.isEmpty && strContains s needle

/-- Python `f"{x}"` for an optional string: `None` renders as "None". -/
def pyStr (o : Option String) : String :=
  match o with
  | none => "None"
  | some s => s

/-- The mutable local state of `_analyze_single_point`: `point_score`,
`current_risks`, `image_url`, `atmosphere` (navigator.py lines 388-391). -/
structure EvalCore where
  point_score : ℚ
  current_risks : List (RiskCat × String)
  image_url : Option String
  atmosphere : Option String
deriving DecidableEq, Repr

/-- Initial state: score 100, no risks (navigator.py lines 388-391). -/
def initCore : EvalCore := ⟨100, [], none, none⟩

/-- Step 1 of `_analyze_single_point` (navigator.py lines 397-419): visual
vibe check, run only in normal mode and when the analyst is available; an
exception is caught and contributes nothing. Returns the new state and
the calls made. -/
def vibeStep (is_emergency_mode : Bool) (analyst : Option (Except String VibeOutcome))
    (st : EvalCore) : EvalCore × List Src :=
  if is_emergency_mode then (st, []) else
  match analyst with
  | none => (st, [])
  | some (.error _) => (st, [Src.analyst])
  | some (.ok vibe_result) =>
    let vibe_score := vibe_result.safety_score
    let st := { st with atmosphere := some vibe_result.atmosphere,
                        image_url := vibe_result.image_url }
    let vibe_penalty := (100 - vibe_score) * (2/10)
    if vibe_penalty > 0 then
      ({ st with point_score := st.point_score - vibe_penalty,
                 current_risks := st.current_risks ++ [(RiskCat.VIBE_RISK, vibe_result.atmosphere)] },
       [Src.analyst])
    else (st, [Src.analyst])

/-- Step 2 of `_analyze_single_point` (navigator.py lines 421-435): solar
shadow/darkness deduction, normal mode only; exceptions caught. -/
def solarStep (is_emergency_mode : Bool) (solar : Option (Except String (ℚ × String)))
    (st : EvalCore) : EvalCore × List Src :=
  if is_emergency_mode then (st, []) else
  match solar with
  | none => (st, [])
  | some (.error _) => (st, [Src.solar])
  | some (.ok (solar_deduction, solar_label)) =>
    if solar_deduction > 0 then
      ({ st with point_score := st.point_score - solar_deduction,
                 current_risks := st.current_risks ++ [(RiskCat.SHADOW_RISK, solar_label)] },
       [Src.solar])
    else (st, [Src.solar])

/-- Step 3 of `_analyze_single_point` (navigator.py lines 437-452): places
safety bonus, normal mode only; exceptions caught. The bonus is added and
one SAFETY_BONUS factor is recorded per contributing spot. -/
def placesStep (is_emergency_mode : Bool) (places : Option (Except String (ℚ × List String)))
    (st : EvalCore) : EvalCore × List Src :=
  if is_emergency_mode then (st, []) else
  match places with
  | none => (st, [])
  | some (.error _) => (st, [Src.places])
  | some (.ok (bonus, spot_details)) =>
    if bonus > 0 then
      ({ st with point_score := st.point_score + bonus,
                 current_risks := st.current_risks ++
                   spot_details.map (fun d => (RiskCat.SAFETY_BONUS, d)) },
       [Src.places])
    else (st, [Src.places])

/-- Step D of `_analyze_single_point` (navigator.py lines 466-485): flood
hazard, queried only when a flood alert is active and the service is
available; the penalty is tiered by the depth label. -/
def floodStep (active_alerts : List String) (flood : Option (Except String (Bool × Option String)))
    (st : EvalCore) : EvalCore × List Src :=
  if is_hazard_alert_active active_alerts "flood" then
    match flood with
    | none => (st, [])
    | some (.error _) => (st, [Src.flood])
    | some (.ok (is_flood, depth)) =>
      if is_flood then
        let st :=
          if depth_has depth "10m" then
            { st with point_score := st.point_score - 50 }
          else if depth_has depth "5m" || depth_has depth "3m" then
            { st with point_score := st.point_score - 35 }
          else if depth_has depth "0.5m〜" then
            { st with point_score := st.point_score - 20 }
          else
            { st with point_score := st.point_score - 10 }
        ({ st with current_risks := st.current_risks ++
             [(RiskCat.FLOOD_HAZARD, "浸水想定区域 (" ++ pyStr depth ++ ")")] },
         [Src.flood])
      else (st, [Src.flood])
  else (st, [])

/-- Step E of `_analyze_single_point` (navigator.py lines 487-506): tsunami
hazard, gated by tsunami alerts. -/
def tsunamiStep (active_alerts : List String) (tsunami : Option (Except String (Bool × Option String)))
    (st : EvalCore) : EvalCore × List Src :=
  if is_hazard_alert_active active_alerts "tsunami" then
    match tsunami with
    | none => (st, [])
    | some (.error _) => (st, [Src.tsunami])
    | some (.ok (is_tsunami, depth)) =>
      if is_tsunami then
        let st :=
          if depth_has depth "10m" then
            { st with point_score := st.point_score - 60 }
          else if depth_has depth "5m" then
            { st with point_score := st.point_score - 45 }
          else if depth_has depth "2m" || depth_has depth "1m" then
            { st with point_score := st.point_score - 30 }
          else
            { st with point_score := st.point_score - 15 }
        ({ st with current_risks := st.current_risks ++
             [(RiskCat.TSUNAMI_HAZARD, "津波浸水想定区域 (" ++ pyStr depth ++ ")")] },
         [Src.tsunami])
      else (st, [Src.tsunami])
  else (st, [])

/-- Step F of `_analyze_single_point` (navigator.py lines 508-519):
landslide hazard, gated by the landslide alert; flat -40 penalty. -/
def landslideStep (active_alerts : List String) (landslide : Option (Except String (Bool × Option String)))
    (st : EvalCore) : EvalCore × List Src :=
  if is_hazard_alert_active active_alerts "landslide" then
    match landslide with
    | none => (st, [])
    | some (.error _) => (st, [Src.landslide])
    | some (.ok (is_landslide, risk_type)) =>
      if is_landslide then
        ({ st with point_score := st.point_score - 40,
                   current_risks := st.current_risks ++
                     [(RiskCat.LANDSLIDE_HAZARD, pyStr risk_type)] },
         [Src.landslide])
      else (st, [Src.landslide])
  else (st, [])

/-- `_analyze_single_point` (navigator.py lines 381-533): the six
sub-evaluations in source order, then the final clamp of the score to
[0,100] (lines 521-523). Returns the result dict and the invoked
sources. -/
def analyze_single_point (is_emergency_mode : Bool) (active_alerts : List String)
    (srcs : Sources) (point : Pt) : PointResult × List Src :=
  let r1 := vibeStep is_emergency_mode srcs.analyst initCore
  let r2 := solarStep is_emergency_mode srcs.solar r1.1
  let r3 := placesStep is_emergency_mode srcs.places r2.1
  let r4 := floodStep active_alerts srcs.flood r3.1
  let r5 := tsunamiStep active_alerts srcs.tsunami r4.1
  let r6 := landslideStep active_alerts srcs.landslide r5.1
  let st := r6.1
  let point_score := if st.point_score < 0 then (0:ℚ) else st.point_score
  let point_score := if point_score > 100 then (100:ℚ) else point_score
  ({ lat := point.lat, lng := point.lng, score := point_score,
     risks := st.current_risks, image_url := st.image_url,
     atmosphere := st.atmosphere },
   r1.2 ++ r2.2 ++ r3.2 ++ r4.2 ++ r5.2 ++ r6.2)

/-- Linear interpolation between two path points
(navigator.py lines 589-592). -/
def interp (p1 p2 : Pt) (ratio : ℚ) : Pt :=
  ⟨p1.lat + (p2.lat - p1.lat) * ratio, p1.lng + (p2.lng - p1.lng) * ratio⟩

/-- The inner `while remaining_dist >= dist_to_next_sample` loop of
`_resample_path` (navigator.py lines 586-602), with an explicit fuel
bound on the iteration count; the callers pass
`⌈(buffer + segment_dist) / interval⌉ + 1` fuel, which the loop never
exhausts (each iteration consumes `dist_to_next_sample`, which is
`interval` after the first). Arguments after the fuel: `remaining_dist`,
`progress_on_segment`, `current_dist_buffer`, `dist_to_next_sample`.
Returns the emitted points and the loop's final buffer contribution
(`current_dist_buffer + remaining_dist`, line 605). -/
def segLoop (p1 p2 : Pt) (segment_dist interval_meters : ℚ) :
    ℕ → ℚ → ℚ → ℚ → ℚ → List Pt × ℚ
  | 0, remaining_dist, _, current_dist_buffer, _ =>
    ([], current_dist_buffer + remaining_dist)
  | fuel + 1, remaining_dist, progress_on_segment, current_dist_buffer, dist_to_next_sample =>
    if dist_to_next_sample ≤ remaining_dist then
      let ratio := (progress_on_segment + dist_to_next_sample) / segment_dist
      let next := segLoop p1 p2 segment_dist interval_meters fuel
        (remaining_dist - dist_to_next_sample)
        (progress_on_segment + dist_to_next_sample) 0 interval_meters
      (interp p1 p2 ratio :: next.1, next.2)
    else ([], current_dist_buffer + remaining_dist)

/-- The segment loop of `_resample_path` (navigator.py lines 566-605):
walk consecutive segments, skip zero-length segments without touching the
buffer, otherwise run the sampling loop and carry the leftover distance
into the buffer. `dist` abstracts `geopy.distance.geodesic(...).meters`. -/
def resamplePathAux (dist : Pt → Pt → ℚ) (interval_meters : ℚ) :
    List Pt → ℚ → List Pt
  | [], _ => []
  | [_], _ => []
  | p1 :: p2 :: rest, current_dist_buffer =>
    let segment_dist := dist p1 p2
    if segment_dist = 0 then
      resamplePathAux dist interval_meters (p2 :: rest) current_dist_buffer
    else
      let fuel := (⌈(current_dist_buffer + segment_dist) / interval_meters⌉).toNat + 1
      let res := segLoop p1 p2 segment_dist interval_meters fuel segment_dist 0
        current_dist_buffer (interval_meters - current_dist_buffer)
      res.1 ++ resamplePathAux dist interval_meters (p2 :: rest) res.2

/-- `_resample_path` (navigator.py lines 544-608): empty input gives an
empty output; otherwise the first input point is always kept and the
segment walk starts with an empty distance buffer. -/
def resample_path (dist : Pt → Pt → ℚ) (points : List Pt) (interval_meters : ℚ) : List Pt :=
  match points with
  | [] => []
  | p :: _ => p :: resamplePathAux dist interval_meters points 0

/-- `SAMPLING_INTERVAL_METERS` (navigator.py line 16). -/
def SAMPLING_INTERVAL_METERS : ℚ := 100

/-- A route candidate as consumed by the batch analyzer: metadata plus the
decoded `overview_polyline` path (`none` models a missing polyline;
`_decode_polyline` itself wraps the external googlemaps decoder and is
absorbed into this field). -/
structure Route where
  summary : String
  overview_polyline : Option (List Pt)
deriving DecidableEq, Repr

/-- `get_sampling_points` (navigator.py lines 159-169), also inlined in
step 1 of `analyze_routes_batch` (lines 206-217): decode the polyline and
resample it at `SAMPLING_INTERVAL_METERS`. -/
def get_sampling_points (dist : Pt → Pt → ℚ) (route : Route) : List Pt :=
  match route.overview_polyline with
  | none => []
  | some path_points => resample_path dist path_points SAMPLING_INTERVAL_METERS

/-- `point_key` (navigator.py lines 221-222): latitude and longitude
independently rounded to 4 decimal places, here as the integer grid cell
`round (coord * 10000)`. -/
def point_key (p : Pt) : ℤ × ℤ :=
  (round (p.lat * 10000), round (p.lng * 10000))

/-- Step 1 of `analyze_routes_batch` (navigator.py lines 203-217): all
routes' sampled points in route order. -/
def all_sampled_points (dist : Pt → Pt → ℚ) (routes : List Route) : List Pt :=
  (routes.map (get_sampling_points dist)).flatten

/-- One iteration of the `unique_points` collection loop (navigator.py
lines 225-228): `if key not in unique_points: unique_points[key] = point`
on an insertion-ordered dict. -/
def uniqStep (acc : List ((ℤ × ℤ) × Pt)) (point : Pt) : List ((ℤ × ℤ) × Pt) :=
  let key := point_key point
  if acc.any (fun kv => decide (kv.1 = key)) then acc else acc ++ [(key, point)]

/-- Step 2 of `analyze_routes_batch` (navigator.py lines 224-231): the
insertion-ordered `unique_points` dict, `key -> point`, keeping the
first-seen point for each key. -/
def unique_points (pts : List Pt) : List ((ℤ × ℤ) × Pt) :=
  pts.foldl uniqStep []

/-- Dictionary lookup on an insertion-ordered association list
(Python `dict.get`; the insertion loops below never insert a key twice,
so first-match lookup is exactly dict lookup). -/
def assocLookup {α : Type} : List ((ℤ × ℤ) × α) → (ℤ × ℤ) → Option α
  | [], _ => none
  | kv :: rest, key => if kv.1 = key then some kv.2 else assocLookup rest key

/-- Step 3/4 of `analyze_routes_batch` (navigator.py lines 253-265): each
unique point is evaluated once, in order, and successful results are
stored under the point's key; a task that ended in an exception
(`isinstance(result, Exception)`) is skipped. `evalP point = none` models
such a failed task. -/
def results_cache (evalP : Pt → Option PointResult)
    (ups : List ((ℤ × ℤ) × Pt)) : List ((ℤ × ℤ) × PointResult) :=
  ups.filterMap (fun kv => (evalP kv.2).map (fun r => (kv.1, r)))

/-- `risk_factors` of a route's analysis (navigator.py line 289):
`list(set(...))` over all details' risks; the set's iteration order is
unspecified in Python, modelled as first-occurrence deduplication. -/
def route_risk_factors (details : List PointResult) : List (RiskCat × String) :=
  ((details.map (·.risks)).flatten).dedup

/-- One iteration of the per-route scoring loop (navigator.py lines
278-284): look the point's key up in the results cache; on a hit, append
it to `details` and lower `min_route_score` if the hit scores below it;
on a miss, leave the accumulator unchanged. -/
def rmdStep (cache : List ((ℤ × ℤ) × PointResult))
    (acc : ℚ × List PointResult) (point : Pt) : ℚ × List PointResult :=
  match assocLookup cache (point_key point) with
  | none => acc
  | some result =>
    ((if result.score < acc.1 then result.score else acc.1), acc.2 ++ [result])

/-- The per-route loop body of step 5 of `analyze_routes_batch`
(navigator.py lines 275-284): fold the route's sampled points over the
results cache, collecting cache hits as `details` and taking the minimum
hit score, starting from `min_route_score = 100.0`. -/
def route_min_details (cache : List ((ℤ × ℤ) × PointResult))
    (sampled_points : List Pt) : ℚ × List PointResult :=
  sampled_points.foldl (rmdStep cache) (100, [])

/-- A member of `evaluated_routes` (navigator.py lines 286-298). -/
structure RiskAnalysis where
  score : ℚ
  details : List PointResult
  risk_factors : List (RiskCat × String)
deriving DecidableEq, Repr

/-- A member of `evaluated_routes` (navigator.py lines 292-298): route
metadata plus the risk analysis; `score` duplicates
`risk_analysis.score` as in the source. -/
structure EvaluatedRoute where
  summary : String
  overview_polyline : Option (List Pt)
  risk_analysis : RiskAnalysis
  score : ℚ
deriving DecidableEq, Repr

/-- One entry of `evaluated_routes` for a route with a non-empty sample
list (navigator.py lines 286-298). -/
def evaluated_route_of (cache : List ((ℤ × ℤ) × PointResult))
    (route : Route) (sampled_points : List Pt) : EvaluatedRoute :=
  let md := route_min_details cache sampled_points
  { summary := route.summary,
    overview_polyline := route.overview_polyline,
    risk_analysis := { score := md.1, details := md.2,
                       risk_factors := route_risk_factors md.2 },
    score := md.1 }

/-- Step 5 of `analyze_routes_batch` (navigator.py lines 268-298): score
each route against the cache, skipping routes with an empty sample list
(`if not sampled_points: continue`). The sample list is recomputed via
`get_sampling_points`, which is extensionally the `route_points_map`
entry computed in step 1 (resampling is deterministic). -/
def score_routes (dist : Pt → Pt → ℚ) (cache : List ((ℤ × ℤ) × PointResult)) :
    List Route → List EvaluatedRoute
  | [] => []
  | route :: rest =>
    let sampled_points := get_sampling_points dist route
    if sampled_points.isEmpty then score_routes dist cache rest
    else evaluated_route_of cache route sampled_points :: score_routes dist cache rest

/-- `analyze_routes_batch` (navigator.py lines 190-301): collect all
routes' sampled points, deduplicate them by `point_key`, evaluate each
unique point once into the results cache, then score every route against
the cache. `evalP` is the per-point evaluation task (`none` = the task
raised and was skipped by the gather loop). -/
def analyze_routes_batch (dist : Pt → Pt → ℚ) (evalP : Pt → Option PointResult)
    (routes : List Route) : List EvaluatedRoute :=
  let all_points := all_sampled_points dist routes
  let cache := results_cache evalP (unique_points all_points)
  score_routes dist cache routes

/-- The per-point evaluation task used by the batch analyzer: it runs
`_analyze_single_point` on the point; `crashes point = true` models a
task whose exception escaped and was caught by
`asyncio.gather(..., return_exceptions=True)`. -/
def eval_from_sources (is_emergency_mode : Bool) (active_alerts : List String)
    (srcs : Pt → Sources) (crashes : Pt → Bool) (point : Pt) : Option PointResult :=
  if crashes point then none
  else some (analyze_single_point is_emergency_mode active_alerts (srcs point) point).1

/-- `analyze_with_callback` (navigator.py lines 244-251): run the point
task, then hand the result to the optional progress sink, catching and
logging any exception the sink raises (`except Exception as e: print`);
the result is returned either way. -/
def analyze_with_callback (evalP : Pt → Option PointResult)
    (on_progress : Option (PointResult → Except String Unit)) (point : Pt) :
    Option PointResult :=
  match evalP point with
  | none => none
  | some result =>
    match on_progress with
    | none => some result
    | some sink =>
      match sink result with
      | .ok _ => some result
      | .error _ => some result

/-- `analyze_routes_batch` with the progress sink attached: identical to
`analyze_routes_batch` except each point task is wrapped in
`analyze_with_callback` (navigator.py lines 244-257). -/
def analyze_routes_batch_with_sink (dist : Pt → Pt → ℚ)
    (evalP : Pt → Option PointResult)
    (on_progress : Option (PointResult → Except String Unit))
    (routes : List Route) : List EvaluatedRoute :=
  let all_points := all_sampled_points dist routes
  let cache := results_cache (analyze_with_callback evalP on_progress)
    (unique_points all_points)
  score_routes dist cache routes

/-- Stable descending insertion for `EvaluatedRoute` by score: an element
is placed before the first element whose score does not exceed it, so
earlier input elements stay first among equal scores. -/
def insort (x : EvaluatedRoute) : List EvaluatedRoute → List EvaluatedRoute
  | [] => [x]
  | y :: ys => if y.score ≤ x.score then x :: y :: ys else y :: insort x ys

/-- `evaluated_routes.sort(key=lambda x: x["score"], reverse=True)`
(main.py line 475, navigator.py line 126): Python's sort is stable, and
`reverse=True` keeps equal-key elements in input order, which is exactly
the stable descending insertion sort. -/
def sort_by_score_desc (l : List EvaluatedRoute) : List EvaluatedRoute :=
  l.foldr insort []

/-- Best-route selection (main.py lines 474-493): when `evaluated_routes`
is non-empty, sort descending by score and take the first; otherwise the
request fails with `{"error": "No valid routes after analysis"}`,
modelled as `none`. -/
def select_best_route (evaluated_routes : List EvaluatedRoute) : Option EvaluatedRoute :=
  match sort_by_score_desc evaluated_routes with
  | [] => none
  | best :: _ => some best

/-! ## Theorems -/

/-- Any depth label that contains the substring "0.5m〜" also contains
"5m", so the `elif depth and "0.5m〜" in depth` branch of the flood tier
chain (navigator.py line 479) is unreachable: the preceding
`"5m" in depth` test always fires first. -/
lemma half_meter_label_has_five_meter (s : Option String) :
    depth_has s "0.5m〜" = true → depth_has s "5m" = true := by
  rcases s with _ | s
  · simp [depth_has]
  · simp only [depth_has, Bool.and_eq_true, strContains, decide_eq_true_eq]
    rintro ⟨h1, h2⟩
    exact ⟨h1, List.IsInfix.trans (by decide) h2⟩

/-- Failing input for C2: a flood hit whose depth label is the standard
"0.5m〜3.0m未満" band; only the flood source is available. -/
def c2Srcs : Sources :=
  { analyst := none, solar := none, places := none,
    flood := some (.ok (true, some "0.5m〜3.0m未満")),
    tsunami := none, landslide := none }

/-- C2: the claim says a depth label containing "0.5m〜" costs exactly 20
points. The code disagrees: because "0.5m〜" contains the substring "5m",
the earlier −35 tier fires, so the point scores 65 (100 − 35), not 80
(100 − 20); the FLOOD_HAZARD factor is recorded as claimed. This theorem
evaluates the evaluator at the failing input. -/
theorem c2_flood_half_meter_tier_bug :
    ((analyze_single_point true ["大雨警報"] c2Srcs ⟨35, 139⟩).1.score = 65)
    ∧ ((analyze_single_point true ["大雨警報"] c2Srcs ⟨35, 139⟩).1.risks
        = [(RiskCat.FLOOD_HAZARD, "浸水想定区域 (0.5m〜3.0m未満)")])
    ∧ depth_has (some "0.5m〜3.0m未満") "0.5m〜" = true
    ∧ (analyze_single_point true ["大雨警報"] c2Srcs ⟨35, 139⟩).1.score ≠ 100 - 20 := by
  have halert : is_hazard_alert_active ["大雨警報"] "flood" = true := by decide
  have h10 : depth_has (some "0.5m〜3.0m未満") "10m" = false := by decide
  have h5 : depth_has (some "0.5m〜3.0m未満") "5m" = true := by decide
  have hhalf : depth_has (some "0.5m〜3.0m未満") "0.5m〜" = true := by decide
  refine ⟨?_, ?_, hhalf, ?_⟩ <;>
    simp [analyze_single_point, vibeStep, solarStep, placesStep, floodStep,
      tsunamiStep, landslideStep, initCore, c2Srcs, halert, h10, h5, pyStr] <;>
    norm_num

/-- C4: for every combination of mode, alerts and source outcomes, the
score of the returned point result lies in [0, 100]: the final clamp
(navigator.py lines 521-523) bounds whatever the raw deltas produced. -/
theorem c4_point_score_clamped (is_emergency_mode : Bool) (active_alerts : List String)
    (srcs : Sources) (point : Pt) :
    0 ≤ (analyze_single_point is_emergency_mode active_alerts srcs point).1.score ∧
    (analyze_single_point is_emergency_mode active_alerts srcs point).1.score ≤ 100 := by
  unfold analyze_single_point
  dsimp only
  constructor <;> split_ifs <;> linarith

lemma vibeStep_snd (em : Bool) (a : Option (Except String VibeOutcome)) (st : EvalCore) :
    (vibeStep em a st).2 = if em = false ∧ a.isSome = true then [Src.analyst] else [] := by
  cases em <;> rcases a with _ | (e | v) <;> simp [vibeStep] <;> split_ifs <;> simp

lemma solarStep_snd (em : Bool) (a : Option (Except String (ℚ × String))) (st : EvalCore) :
    (solarStep em a st).2 = if em = false ∧ a.isSome = true then [Src.solar] else [] := by
  cases em <;> rcases a with _ | (e | ⟨d, l⟩) <;> simp [solarStep] <;> split_ifs <;> simp

lemma placesStep_snd (em : Bool) (a : Option (Except String (ℚ × List String))) (st : EvalCore) :
    (placesStep em a st).2 = if em = false ∧ a.isSome = true then [Src.places] else [] := by
  cases em <;> rcases a with _ | (e | ⟨b, l⟩) <;> simp [placesStep] <;> split_ifs <;> simp

lemma floodStep_snd (alerts : List String) (a : Option (Except String (Bool × Option String)))
    (st : EvalCore) :
    (floodStep alerts a st).2 =
      if is_hazard_alert_active alerts "flood" = true ∧ a.isSome = true
      then [Src.flood] else [] := by
  cases h : is_hazard_alert_active alerts "flood" <;>
    rcases a with _ | (e | ⟨b, d⟩) <;> simp [floodStep, h] <;> split_ifs <;> simp

lemma tsunamiStep_snd (alerts : List String) (a : Option (Except String (Bool × Option String)))
    (st : EvalCore) :
    (tsunamiStep alerts a st).2 =
      if is_hazard_alert_active alerts "tsunami" = true ∧ a.isSome = true
      then [Src.tsunami] else [] := by
  cases h : is_hazard_alert_active alerts "tsunami" <;>
    rcases a with _ | (e | ⟨b, d⟩) <;> simp [tsunamiStep, h] <;> split_ifs <;> simp

lemma landslideStep_snd (alerts : List String) (a : Option (Except String (Bool × Option String)))
    (st : EvalCore) :
    (landslideStep alerts a st).2 =
      if is_hazard_alert_active alerts "landslide" = true ∧ a.isSome = true
      then [Src.landslide] else [] := by
  cases h : is_hazard_alert_active alerts "landslide" <;>
    rcases a with _ | (e | ⟨b, d⟩) <;> simp [landslideStep, h] <;> split_ifs <;> simp

/-- The full list of sources a point evaluation invokes, as a function of
mode, alerts and availability: the three normal-mode sources are called
exactly when the mode is normal and the service is present, each hazard
source exactly when a matching alert is active and the service is
present. -/
lemma asp_calls_eq (em : Bool) (alerts : List String) (srcs : Sources) (p : Pt) :
    (analyze_single_point em alerts srcs p).2 =
      (if em = false ∧ srcs.analyst.isSome = true then [Src.analyst] else [])
      ++ (if em = false ∧ srcs.solar.isSome = true then [Src.solar] else [])
      ++ (if em = false ∧ srcs.places.isSome = true then [Src.places] else [])
      ++ (if is_hazard_alert_active alerts "flood" = true ∧ srcs.flood.isSome = true
          then [Src.flood] else [])
      ++ (if is_hazard_alert_active alerts "tsunami" = true ∧ srcs.tsunami.isSome = true
          then [Src.tsunami] else [])
      ++ (if is_hazard_alert_active alerts "landslide" = true ∧ srcs.landslide.isSome = true
          then [Src.landslide] else []) := by
  unfold analyze_single_point
  dsimp only
  rw [vibeStep_snd, solarStep_snd, placesStep_snd, floodStep_snd, tsunamiStep_snd,
    landslideStep_snd]

lemma mem_if_singleton {c : Prop} [Decidable c] (s t : Src) :
    (s ∈ if c then [t] else []) ↔ (c ∧ s = t) := by
  split_ifs with h <;> simp [h]

lemma analyst_mem_calls (em : Bool) (alerts : List String) (srcs : Sources) (p : Pt) :
    Src.analyst ∈ (analyze_single_point em alerts srcs p).2 ↔
      (em = false ∧ srcs.analyst.isSome = true) := by
  rw [asp_calls_eq]
  simp [mem_if_singleton]

lemma solar_mem_calls (em : Bool) (alerts : List String) (srcs : Sources) (p : Pt) :
    Src.solar ∈ (analyze_single_point em alerts srcs p).2 ↔
      (em = false ∧ srcs.solar.isSome = true) := by
  rw [asp_calls_eq]
  simp [mem_if_singleton]

lemma places_mem_calls (em : Bool) (alerts : List String) (srcs : Sources) (p : Pt) :
    Src.places ∈ (analyze_single_point em alerts srcs p).2 ↔
      (em = false ∧ srcs.places.isSome = true) := by
  rw [asp_calls_eq]
  simp [mem_if_singleton]

lemma flood_mem_calls (em : Bool) (alerts : List String) (srcs : Sources) (p : Pt) :
    Src.flood ∈ (analyze_single_point em alerts srcs p).2 ↔
      (is_hazard_alert_active alerts "flood" = true ∧ srcs.flood.isSome = true) := by
  rw [asp_calls_eq]
  simp [mem_if_singleton]

lemma tsunami_mem_calls (em : Bool) (alerts : List String) (srcs : Sources) (p : Pt) :
    Src.tsunami ∈ (analyze_single_point em alerts srcs p).2 ↔
      (is_hazard_alert_active alerts "tsunami" = true ∧ srcs.tsunami.isSome = true) := by
  rw [asp_calls_eq]
  simp [mem_if_singleton]

lemma landslide_mem_calls (em : Bool) (alerts : List String) (srcs : Sources) (p : Pt) :
    Src.landslide ∈ (analyze_single_point em alerts srcs p).2 ↔
      (is_hazard_alert_active alerts "landslide" = true ∧ srcs.landslide.isSome = true) := by
  rw [asp_calls_eq]
  simp [mem_if_singleton]

/-- `_is_hazard_alert_active` holds exactly when some active alert maps to
the hazard category under `ALERT_TO_HAZARD` (for a non-empty category
name, so the `.get(alert, "")` default cannot collide). -/
lemma is_hazard_alert_active_iff (alerts : List String) (h : String) (hne : h ≠ "") :
    is_hazard_alert_active alerts h = true ↔ ∃ a ∈ alerts, ALERT_TO_HAZARD a = some h := by
  simp only [is_hazard_alert_active, List.any_eq_true, beq_iff_eq]
  constructor
  · rintro ⟨a, ha, hmap⟩
    refine ⟨a, ha, ?_⟩
    rcases hm : ALERT_TO_HAZARD a with _ | v
    · rw [hm] at hmap; simp at hmap; exact absurd hmap.symm hne
    · rw [hm] at hmap; simp at hmap; rw [hmap]
  · rintro ⟨a, ha, hmap⟩
    exact ⟨a, ha, by rw [hmap]; rfl⟩

/-- C3: mode and alert gating of `_analyze_single_point`. In emergency
mode the vibe, solar and places sources are never invoked; each hazard
source, when available, is queried if and only if some active alert maps
to its category under `ALERT_TO_HAZARD`; and with an empty alert set no
hazard source is invoked at all. -/
theorem c3_mode_and_alert_gating :
    (∀ (em : Bool) (alerts : List String) (srcs : Sources) (p : Pt), em = true →
      Src.analyst ∉ (analyze_single_point em alerts srcs p).2
      ∧ Src.solar ∉ (analyze_single_point em alerts srcs p).2
      ∧ Src.places ∉ (analyze_single_point em alerts srcs p).2)
    ∧ (∀ (em : Bool) (alerts : List String) (srcs : Sources) (p : Pt),
        srcs.flood.isSome = true →
        (Src.flood ∈ (analyze_single_point em alerts srcs p).2
          ↔ ∃ a ∈ alerts, ALERT_TO_HAZARD a = some "flood"))
    ∧ (∀ (em : Bool) (alerts : List String) (srcs : Sources) (p : Pt),
        srcs.tsunami.isSome = true →
        (Src.tsunami ∈ (analyze_single_point em alerts srcs p).2
          ↔ ∃ a ∈ alerts, ALERT_TO_HAZARD a = some "tsunami"))
    ∧ (∀ (em : Bool) (alerts : List String) (srcs : Sources) (p : Pt),
        srcs.landslide.isSome = true →
        (Src.landslide ∈ (analyze_single_point em alerts srcs p).2
          ↔ ∃ a ∈ alerts, ALERT_TO_HAZARD a = some "landslide"))
    ∧ (∀ (em : Bool) (srcs : Sources) (p : Pt),
        Src.flood ∉ (analyze_single_point em [] srcs p).2
        ∧ Src.tsunami ∉ (analyze_single_point em [] srcs p).2
        ∧ Src.landslide ∉ (analyze_single_point em [] srcs p).2) := by
  refine ⟨?_, ?_, ?_, ?_, ?_⟩
  · intro em alerts srcs p hem
    subst hem
    simp [analyst_mem_calls, solar_mem_calls, places_mem_calls]
  · intro em alerts srcs p hav
    rw [← is_hazard_alert_active_iff alerts "flood" (by decide)]
    simp [flood_mem_calls, hav]
  · intro em alerts srcs p hav
    rw [← is_hazard_alert_active_iff alerts "tsunami" (by decide)]
    simp [tsunami_mem_calls, hav]
  · intro em alerts srcs p hav
    rw [← is_hazard_alert_active_iff alerts "landslide" (by decide)]
    simp [landslide_mem_calls, hav]
  · intro em srcs p
    have hempty : ∀ h, is_hazard_alert_active [] h = false := fun h => rfl
    simp [flood_mem_calls, tsunami_mem_calls, landslide_mem_calls, hempty]

/-- A sub-evaluation that produced no successful result: the service is
absent or its call raised an exception. -/
def srcFailed {α : Type} : Option (Except String α) → Prop
  | some (.ok _) => False
  | _ => True

/-- No sub-evaluation of the point succeeded. -/
def srcsNoSuccess (srcs : Sources) : Prop :=
  srcFailed srcs.analyst ∧ srcFailed srcs.solar ∧ srcFailed srcs.places ∧
  srcFailed srcs.flood ∧ srcFailed srcs.tsunami ∧ srcFailed srcs.landslide

lemma vibeStep_fst_failed (em : Bool) (a : Option (Except String VibeOutcome))
    (st : EvalCore) (h : srcFailed a) : (vibeStep em a st).1 = st := by
  rcases a with _ | (e | v)
  · cases em <;> simp [vibeStep]
  · cases em <;> simp [vibeStep]
  · exact h.elim

lemma solarStep_fst_failed (em : Bool) (a : Option (Except String (ℚ × String)))
    (st : EvalCore) (h : srcFailed a) : (solarStep em a st).1 = st := by
  rcases a with _ | (e | v)
  · cases em <;> simp [solarStep]
  · cases em <;> simp [solarStep]
  · exact h.elim

lemma placesStep_fst_failed (em : Bool) (a : Option (Except String (ℚ × List String)))
    (st : EvalCore) (h : srcFailed a) : (placesStep em a st).1 = st := by
  rcases a with _ | (e | v)
  · cases em <;> simp [placesStep]
  · cases em <;> simp [placesStep]
  · exact h.elim

lemma floodStep_fst_failed (alerts : List String) (a : Option (Except String (Bool × Option String)))
    (st : EvalCore) (h : srcFailed a) : (floodStep alerts a st).1 = st := by
  rcases a with _ | (e | v)
  · cases hx : is_hazard_alert_active alerts "flood" <;> simp [floodStep, hx]
  · cases hx : is_hazard_alert_active alerts "flood" <;> simp [floodStep, hx]
  · exact h.elim

lemma tsunamiStep_fst_failed (alerts : List String) (a : Option (Except String (Bool × Option String)))
    (st : EvalCore) (h : srcFailed a) : (tsunamiStep alerts a st).1 = st := by
  rcases a with _ | (e | v)
  · cases hx : is_hazard_alert_active alerts "tsunami" <;> simp [tsunamiStep, hx]
  · cases hx : is_hazard_alert_active alerts "tsunami" <;> simp [tsunamiStep, hx]
  · exact h.elim

lemma landslideStep_fst_failed (alerts : List String) (a : Option (Except String (Bool × Option String)))
    (st : EvalCore) (h : srcFailed a) : (landslideStep alerts a st).1 = st := by
  rcases a with _ | (e | v)
  · cases hx : is_hazard_alert_active alerts "landslide" <;> simp [landslideStep, hx]
  · cases hx : is_hazard_alert_active alerts "landslide" <;> simp [landslideStep, hx]
  · exact h.elim

lemma mem_append_single {l : List (RiskCat × String)} {x r : RiskCat × String}
    (hr : r ∈ l ++ [x]) : r ∈ l ∨ r.1 = x.1 := by
  rcases List.mem_append.mp hr with h | h
  · exact Or.inl h
  · right; rw [List.mem_singleton.mp h]

lemma mem_append_map_bonus {l : List (RiskCat × String)} {ds : List String}
    {r : RiskCat × String}
    (hr : r ∈ l ++ ds.map (fun d => (RiskCat.SAFETY_BONUS, d))) :
    r ∈ l ∨ r.1 = RiskCat.SAFETY_BONUS := by
  rcases List.mem_append.mp hr with h | h
  · exact Or.inl h
  · rcases List.mem_map.mp h with ⟨d, _, hd⟩
    right; rw [← hd]

lemma vibeStep_risks (em : Bool) (a : Option (Except String VibeOutcome)) (st : EvalCore) :
    ∀ r ∈ (vibeStep em a st).1.current_risks,
      r ∈ st.current_risks ∨ r.1 = RiskCat.VIBE_RISK := by
  intro r hr
  rw [vibeStep.eq_def] at hr
  split_ifs at hr
  · exact Or.inl hr
  · rcases a with _ | (e | v)
    · exact Or.inl hr
    · exact Or.inl hr
    · dsimp only at hr
      split_ifs at hr <;> dsimp only at hr
      · exact mem_append_single hr
      · exact Or.inl hr

lemma solarStep_risks (em : Bool) (a : Option (Except String (ℚ × String))) (st : EvalCore) :
    ∀ r ∈ (solarStep em a st).1.current_risks,
      r ∈ st.current_risks ∨ r.1 = RiskCat.SHADOW_RISK := by
  intro r hr
  rw [solarStep.eq_def] at hr
  split_ifs at hr
  · exact Or.inl hr
  · rcases a with _ | (e | ⟨d, l⟩)
    · exact Or.inl hr
    · exact Or.inl hr
    · dsimp only at hr
      split_ifs at hr <;> dsimp only at hr
      · exact mem_append_single hr
      · exact Or.inl hr

lemma placesStep_risks (em : Bool) (a : Option (Except String (ℚ × List String))) (st : EvalCore) :
    ∀ r ∈ (placesStep em a st).1.current_risks,
      r ∈ st.current_risks ∨ r.1 = RiskCat.SAFETY_BONUS := by
  intro r hr
  rw [placesStep.eq_def] at hr
  split_ifs at hr
  · exact Or.inl hr
  · rcases a with _ | (e | ⟨b, l⟩)
    · exact Or.inl hr
    · exact Or.inl hr
    · dsimp only at hr
      split_ifs at hr <;> dsimp only at hr
      · exact mem_append_map_bonus hr
      · exact Or.inl hr

lemma floodStep_risks (alerts : List String) (a : Option (Except String (Bool × Option String)))
    (st : EvalCore) :
    ∀ r ∈ (floodStep alerts a st).1.current_risks,
      r ∈ st.current_risks ∨ r.1 = RiskCat.FLOOD_HAZARD := by
  intro r hr
  rw [floodStep.eq_def] at hr
  split_ifs at hr
  · rcases a with _ | (e | ⟨b, d⟩)
    · exact Or.inl hr
    · exact Or.inl hr
    · dsimp only at hr
      split_ifs at hr <;> dsimp only at hr <;>
        first
          | exact mem_append_single hr
          | exact Or.inl hr
  · exact Or.inl hr

lemma tsunamiStep_risks (alerts : List String) (a : Option (Except String (Bool × Option String)))
    (st : EvalCore) :
    ∀ r ∈ (tsunamiStep alerts a st).1.current_risks,
      r ∈ st.current_risks ∨ r.1 = RiskCat.TSUNAMI_HAZARD := by
  intro r hr
  rw [tsunamiStep.eq_def] at hr
  split_ifs at hr
  · rcases a with _ | (e | ⟨b, d⟩)
    · exact Or.inl hr
    · exact Or.inl hr
    · dsimp only at hr
      split_ifs at hr <;> dsimp only at hr <;>
        first
          | exact mem_append_single hr
          | exact Or.inl hr
  · exact Or.inl hr

lemma landslideStep_risks (alerts : List String) (a : Option (Except String (Bool × Option String)))
    (st : EvalCore) :
    ∀ r ∈ (landslideStep alerts a st).1.current_risks,
      r ∈ st.current_risks ∨ r.1 = RiskCat.LANDSLIDE_HAZARD := by
  intro r hr
  rw [landslideStep.eq_def] at hr
  split_ifs at hr
  · rcases a with _ | (e | ⟨b, d⟩)
    · exact Or.inl hr
    · exact Or.inl hr
    · dsimp only at hr
      split_ifs at hr <;> dsimp only at hr <;>
        first
          | exact mem_append_single hr
          | exact Or.inl hr
  · exact Or.inl hr

/-- The first point of a list whose `point_key` is `key` (the
representative the `unique_points` loop keeps for that key). -/
def firstWithKey : List Pt → (ℤ × ℤ) → Option Pt
  | [], _ => none
  | p :: rest, key => if point_key p = key then some p else firstWithKey rest key

lemma any_eq_lookup_isSome {α : Type} (acc : List ((ℤ × ℤ) × α)) (key : ℤ × ℤ) :
    (acc.any (fun kv => decide (kv.1 = key))) = (assocLookup acc key).isSome := by
  induction acc with
  | nil => rfl
  | cons kv rest ih => by_cases h : kv.1 = key <;> simp [assocLookup, h, ih]

lemma assocLookup_eq_none_iff {α : Type} (l : List ((ℤ × ℤ) × α)) (key : ℤ × ℤ) :
    assocLookup l key = none ↔ key ∉ l.map (·.1) := by
  induction l with
  | nil => simp [assocLookup]
  | cons kv rest ih => by_cases h : kv.1 = key <;> simp [assocLookup, h, ih] <;> tauto

lemma assocLookup_mem {α : Type} {l : List ((ℤ × ℤ) × α)} {key : ℤ × ℤ} {v : α}
    (h : assocLookup l key = some v) : (key, v) ∈ l := by
  induction l with
  | nil => simp [assocLookup] at h
  | cons kv rest ih =>
    obtain ⟨k1, v1⟩ := kv
    by_cases hk : k1 = key
    · subst hk
      rw [assocLookup, if_pos rfl] at h
      obtain rfl := Option.some_injective _ h
      exact List.mem_cons_self _ _
    · rw [assocLookup, if_neg hk] at h
      exact List.mem_cons_of_mem _ (ih h)

/-- First-lookup-wins combination: the left dict shadows the right. -/
def orLookup {α : Type} (o alt : Option α) : Option α :=
  match o with
  | some v => some v
  | none => alt

lemma assocLookup_append_single {α : Type} (acc : List ((ℤ × ℤ) × α)) (k0 : ℤ × ℤ)
    (v0 : α) (key : ℤ × ℤ) :
    assocLookup (acc ++ [(k0, v0)]) key =
      orLookup (assocLookup acc key) (if k0 = key then some v0 else none) := by
  induction acc with
  | nil => rfl
  | cons kv rest ih => by_cases hk : kv.1 = key <;> simp [assocLookup, orLookup, hk, ih]

lemma assocLookup_of_mem_nodup {α : Type} {l : List ((ℤ × ℤ) × α)} {kv : (ℤ × ℤ) × α}
    (hm : kv ∈ l) (h : (l.map (·.1)).Nodup) : assocLookup l kv.1 = some kv.2 := by
  induction l with
  | nil => simp at hm
  | cons hd rest ih =>
    rcases List.mem_cons.mp hm with rfl | hm'
    · simp [assocLookup]
    · have hne : hd.1 ≠ kv.1 := by
        intro he
        have : kv.1 ∈ rest.map (·.1) := List.mem_map.mpr ⟨kv, hm', rfl⟩
        rw [← he] at this
        exact (List.nodup_cons.mp h).1 this
      rw [assocLookup, if_neg hne]
      exact ih hm' (List.nodup_cons.mp h).2

lemma uniqStep_lookup (acc : List ((ℤ × ℤ) × Pt)) (p : Pt) (key : ℤ × ℤ) :
    assocLookup (uniqStep acc p) key =
      orLookup (assocLookup acc key) (if point_key p = key then some p else none) := by
  unfold uniqStep
  dsimp only
  rw [any_eq_lookup_isSome]
  cases hpk : assocLookup acc (point_key p) with
  | some v =>
    rw [if_pos (by simp)]
    cases hk : assocLookup acc key with
    | some w => rfl
    | none =>
      have hne : ¬(point_key p = key) := by
        intro he; rw [he, hk] at hpk; exact Option.noConfusion hpk
      simp [orLookup, hne]
  | none =>
    rw [if_neg (by simp)]
    rw [assocLookup_append_single]

lemma foldl_uniqStep_lookup (pts : List Pt) : ∀ (acc : List ((ℤ × ℤ) × Pt)) (key : ℤ × ℤ),
    assocLookup (pts.foldl uniqStep acc) key =
      orLookup (assocLookup acc key) (firstWithKey pts key) := by
  induction pts with
  | nil =>
    intro acc key
    cases h : assocLookup acc key <;> simp [orLookup, firstWithKey, h]
  | cons p rest ih =>
    intro acc key
    rw [List.foldl_cons, ih, uniqStep_lookup]
    cases h : assocLookup acc key with
    | some v => simp [orLookup]
    | none =>
      by_cases hk : point_key p = key <;> simp [orLookup, firstWithKey, hk]

/-- Dedup lookup: the representative stored for a key is the first point
of the input stream whose coordinates round to that key. -/
lemma unique_points_lookup (pts : List Pt) (key : ℤ × ℤ) :
    assocLookup (unique_points pts) key = firstWithKey pts key := by
  rw [unique_points, foldl_uniqStep_lookup]
  rfl

lemma uniqStep_keys_nodup (acc : List ((ℤ × ℤ) × Pt)) (p : Pt)
    (h : (acc.map (·.1)).Nodup) : ((uniqStep acc p).map (·.1)).Nodup := by
  unfold uniqStep
  dsimp only
  rw [any_eq_lookup_isSome]
  cases hpk : assocLookup acc (point_key p) with
  | some v => rw [if_pos (by simp)]; exact h
  | none =>
    rw [if_neg (by simp)]
    have hni : point_key p ∉ acc.map (·.1) := (assocLookup_eq_none_iff _ _).mp hpk
    simp [List.map_append, List.nodup_append, h, hni]

/-- The `unique_points` dict binds each key at most once. -/
lemma unique_points_keys_nodup (pts : List Pt) :
    ((unique_points pts).map (·.1)).Nodup := by
  rw [unique_points]
  have : ∀ acc : List ((ℤ × ℤ) × Pt), (acc.map (·.1)).Nodup →
      ((pts.foldl uniqStep acc).map (·.1)).Nodup := by
    induction pts with
    | nil => intro acc h; exact h
    | cons p rest ih =>
      intro acc h
      rw [List.foldl_cons]
      exact ih _ (uniqStep_keys_nodup acc p h)
  exact this [] (by simp)

lemma firstWithKey_isSome_of_mem {pts : List Pt} {p : Pt} (h : p ∈ pts) :
    (firstWithKey pts (point_key p)).isSome = true := by
  induction pts with
  | nil => simp at h
  | cons q rest ih =>
    by_cases hk : point_key q = point_key p
    · simp [firstWithKey, hk]
    · have hp : p ∈ rest := by
        rcases List.mem_cons.mp h with rfl | hm
        · exact absurd rfl hk
        · exact hm
      simpa [firstWithKey, hk] using ih hp

lemma results_cache_cons (evalP : Pt → Option PointResult) (kv : (ℤ × ℤ) × Pt)
    (rest : List ((ℤ × ℤ) × Pt)) :
    results_cache evalP (kv :: rest) =
      match evalP kv.2 with
      | none => results_cache evalP rest
      | some r => (kv.1, r) :: results_cache evalP rest := by
  rw [results_cache, List.filterMap_cons]
  cases evalP kv.2 <;> rfl

lemma results_cache_lookup_none {evalP : Pt → Option PointResult}
    {ups : List ((ℤ × ℤ) × Pt)} {key : ℤ × ℤ} (h : key ∉ ups.map (·.1)) :
    assocLookup (results_cache evalP ups) key = none := by
  induction ups with
  | nil => rfl
  | cons kv rest ih =>
    simp only [List.map_cons, List.mem_cons] at h
    push_neg at h
    rw [results_cache_cons]
    cases he : evalP kv.2 with
    | none => exact ih h.2
    | some r =>
      rw [assocLookup, if_neg (fun he' => h.1 he'.symm)]
      exact ih h.2

/-- Cache lookup factors through the dedup dict: looking a key up in the
results cache is evaluating the key's representative point (and getting
nothing when that evaluation failed). -/
lemma results_cache_lookup (evalP : Pt → Option PointResult)
    (ups : List ((ℤ × ℤ) × Pt)) (key : ℤ × ℤ) (h : (ups.map (·.1)).Nodup) :
    assocLookup (results_cache evalP ups) key = (assocLookup ups key).bind evalP := by
  induction ups with
  | nil => rfl
  | cons kv rest ih =>
    have hrest : (rest.map (·.1)).Nodup := (List.nodup_cons.mp h).2
    have hni : kv.1 ∉ rest.map (·.1) := (List.nodup_cons.mp h).1
    rw [results_cache_cons]
    by_cases hk : kv.1 = key
    · subst hk
      cases he : evalP kv.2 with
      | none =>
        rw [assocLookup, if_pos rfl, Option.some_bind, he]
        exact results_cache_lookup_none hni
      | some r =>
        rw [assocLookup, if_pos rfl]
        simp [assocLookup, he]
    · cases he : evalP kv.2 with
      | none =>
        rw [assocLookup, if_neg hk]
        exact ih hrest
      | some r =>
        rw [assocLookup, if_neg hk, assocLookup, if_neg hk]
        exact ih hrest

/-- The cache's key column is a sublist of the dedup dict's key column
(failed evaluations are skipped, nothing else changes). -/
lemma results_cache_keys_sublist (evalP : Pt → Option PointResult)
    (ups : List ((ℤ × ℤ) × Pt)) :
    ((results_cache evalP ups).map (·.1)).Sublist (ups.map (·.1)) := by
  induction ups with
  | nil => simp [results_cache]
  | cons kv rest ih =>
    rw [results_cache_cons]
    cases he : evalP kv.2 with
    | none =>
      simp only [List.map_cons]
      exact ih.trans (List.sublist_cons_self _ _)
    | some r =>
      simp only [List.map_cons]
      exact List.Sublist.cons₂ _ ih

lemma firstWithKey_spec {pts : List Pt} {key : ℤ × ℤ} {q : Pt}
    (h : firstWithKey pts key = some q) : q ∈ pts ∧ point_key q = key := by
  induction pts with
  | nil => simp [firstWithKey] at h
  | cons p rest ih =>
    by_cases hk : point_key p = key
    · rw [firstWithKey, if_pos hk] at h
      obtain rfl := Option.some_injective _ h
      exact ⟨List.mem_cons_self _ _, hk⟩
    · rw [firstWithKey, if_neg hk] at h
      exact ⟨List.mem_cons_of_mem _ (ih h).1, (ih h).2⟩

/-- C6: cross-route deduplication. Over the pooled sample points of one
batch run: (i) the dedup dict binds every key exactly once, so each
unique location is evaluated exactly once and the key-to-result cache is
one-to-one; (ii) the point stored for a key is the first-seen point with
that key, and it does round to that key; (iii) every sampled point's key
is bound, and (iv) looking any sampled point's key up in the results
cache yields exactly the evaluation of that first-seen representative,
so all route positions sharing a key reuse the one cached result. -/
theorem c6_dedup_first_seen_reuse :
    (∀ (dist : Pt → Pt → ℚ) (evalP : Pt → Option PointResult) (routes : List Route),
      ((unique_points (all_sampled_points dist routes)).map (·.1)).Nodup
      ∧ ((results_cache evalP (unique_points (all_sampled_points dist routes))).map
          (·.1)).Nodup)
    ∧ (∀ (dist : Pt → Pt → ℚ) (routes : List Route) (key : ℤ × ℤ),
        assocLookup (unique_points (all_sampled_points dist routes)) key
          = firstWithKey (all_sampled_points dist routes) key)
    ∧ (∀ (dist : Pt → Pt → ℚ) (routes : List Route),
        ∀ kv ∈ unique_points (all_sampled_points dist routes),
          firstWithKey (all_sampled_points dist routes) kv.1 = some kv.2)
    ∧ (∀ (dist : Pt → Pt → ℚ) (routes : List Route) (p : Pt),
        p ∈ all_sampled_points dist routes →
        ∃ q, firstWithKey (all_sampled_points dist routes) (point_key p) = some q
          ∧ point_key q = point_key p ∧ q ∈ all_sampled_points dist routes)
    ∧ (∀ (dist : Pt → Pt → ℚ) (evalP : Pt → Option PointResult) (routes : List Route)
        (key : ℤ × ℤ),
        assocLookup (results_cache evalP (unique_points (all_sampled_points dist routes))) key
          = (firstWithKey (all_sampled_points dist routes) key).bind evalP) := by
  refine ⟨?_, ?_, ?_, ?_, ?_⟩
  · intro dist evalP routes
    exact ⟨unique_points_keys_nodup _,
      (unique_points_keys_nodup _).sublist (results_cache_keys_sublist _ _)⟩
  · intro dist routes key
    exact unique_points_lookup _ _
  · intro dist routes kv hm
    rw [← unique_points_lookup]
    exact assocLookup_of_mem_nodup hm (unique_points_keys_nodup _)
  · intro dist routes p hp
    obtain ⟨q, hq⟩ := Option.isSome_iff_exists.mp (firstWithKey_isSome_of_mem hp)
    obtain ⟨hmem, hkey⟩ := firstWithKey_spec hq
    exact ⟨q, hq, hkey, hmem⟩
  · intro dist evalP routes key
    rw [results_cache_lookup _ _ _ (unique_points_keys_nodup _), unique_points_lookup]

lemma asp_no_bonus (em : Bool) (alerts : List String) (srcs : Sources) (p : Pt)
    (h : srcFailed srcs.places) :
    ∀ r ∈ (analyze_single_point em alerts srcs p).1.risks, r.1 ≠ RiskCat.SAFETY_BONUS := by
  intro r hr hcat
  unfold analyze_single_point at hr
  dsimp only at hr
  rcases landslideStep_risks _ _ _ r hr with hr | hc
  · rcases tsunamiStep_risks _ _ _ r hr with hr | hc
    · rcases floodStep_risks _ _ _ r hr with hr | hc
      · rw [placesStep_fst_failed em srcs.places _ h] at hr
        rcases solarStep_risks _ _ _ r hr with hr | hc
        · rcases vibeStep_risks _ _ _ r hr with hr | hc
          · simp [initCore] at hr
          · exact absurd (hc.symm.trans hcat) (by decide)
        · exact absurd (hc.symm.trans hcat) (by decide)
      · exact absurd (hc.symm.trans hcat) (by decide)
    · exact absurd (hc.symm.trans hcat) (by decide)
  · exact absurd (hc.symm.trans hcat) (by decide)

lemma asp_all_failed (em : Bool) (alerts : List String) (srcs : Sources) (p : Pt)
    (h : srcsNoSuccess srcs) :
    (analyze_single_point em alerts srcs p).1.score = 100
    ∧ (analyze_single_point em alerts srcs p).1.risks = [] := by
  obtain ⟨h1, h2, h3, h4, h5, h6⟩ := h
  unfold analyze_single_point
  dsimp only
  rw [landslideStep_fst_failed _ _ _ h6, tsunamiStep_fst_failed _ _ _ h5,
    floodStep_fst_failed _ _ _ h4, placesStep_fst_failed _ _ _ h3,
    solarStep_fst_failed _ _ _ h2, vibeStep_fst_failed _ _ _ h1]
  norm_num [initCore]

/-- C7: per-source fault isolation and fail-open behaviour of
`_analyze_single_point`, plus isolation between points in the batch.
(i) An amenity (places) source that raises is indistinguishable, in the
returned result, from an absent one; (ii) with the places source failed,
no SAFETY_BONUS factor appears in the result; (iii) a point none of
whose sub-evaluations succeeded still yields a valid result with score
100 and no risk factors; (iv) in a batch where no point task crashes,
every pooled sample point has a cache entry (sibling evaluations all
complete); (v) changing the source outcomes of one point does not change
any cache entry whose representative is a different point. -/
theorem c7_fault_isolation :
    (∀ (em : Bool) (alerts : List String) (srcs : Sources) (p : Pt) (e : String),
      (analyze_single_point em alerts { srcs with places := some (.error e) } p).1 =
      (analyze_single_point em alerts { srcs with places := none } p).1)
    ∧ (∀ (em : Bool) (alerts : List String) (srcs : Sources) (p : Pt),
        srcFailed srcs.places →
        ∀ r ∈ (analyze_single_point em alerts srcs p).1.risks,
          r.1 ≠ RiskCat.SAFETY_BONUS)
    ∧ (∀ (em : Bool) (alerts : List String) (srcs : Sources) (p : Pt),
        srcsNoSuccess srcs →
        (analyze_single_point em alerts srcs p).1.score = 100
        ∧ (analyze_single_point em alerts srcs p).1.risks = [])
    ∧ (∀ (dist : Pt → Pt → ℚ) (em : Bool) (alerts : List String)
        (srcsOf : Pt → Sources) (routes : List Route) (p : Pt),
        p ∈ all_sampled_points dist routes →
        (assocLookup
          (results_cache (eval_from_sources em alerts srcsOf (fun _ => false))
            (unique_points (all_sampled_points dist routes)))
          (point_key p)).isSome = true)
    ∧ (∀ (dist : Pt → Pt → ℚ) (em : Bool) (alerts : List String)
        (s1 s2 : Pt → Sources) (cr1 cr2 : Pt → Bool) (routes : List Route)
        (q : Pt) (key : ℤ × ℤ) (rep : Pt),
        (∀ p', p' ≠ q → s1 p' = s2 p') → (∀ p', p' ≠ q → cr1 p' = cr2 p') →
        firstWithKey (all_sampled_points dist routes) key = some rep → rep ≠ q →
        assocLookup (results_cache (eval_from_sources em alerts s1 cr1)
          (unique_points (all_sampled_points dist routes))) key =
        assocLookup (results_cache (eval_from_sources em alerts s2 cr2)
          (unique_points (all_sampled_points dist routes))) key) := by
  refine ⟨?_, ?_, ?_, ?_, ?_⟩
  · intro em alerts srcs p e
    unfold analyze_single_point
    dsimp only
    rw [placesStep_fst_failed em (some (.error e)) _ trivial,
      placesStep_fst_failed em none _ trivial]
  · intro em alerts srcs p h
    exact asp_no_bonus em alerts srcs p h
  · intro em alerts srcs p h
    exact asp_all_failed em alerts srcs p h
  · intro dist em alerts srcsOf routes p hp
    rw [results_cache_lookup _ _ _ (unique_points_keys_nodup _), unique_points_lookup]
    obtain ⟨q, hq⟩ := Option.isSome_iff_exists.mp (firstWithKey_isSome_of_mem hp)
    rw [hq]
    simp [eval_from_sources]
  · intro dist em alerts s1 s2 cr1 cr2 routes q key rep hs hcr hrep hne
    rw [results_cache_lookup _ _ _ (unique_points_keys_nodup _), unique_points_lookup,
      results_cache_lookup _ _ _ (unique_points_keys_nodup _), unique_points_lookup,
      hrep]
    simp only [Option.some_bind]
    unfold eval_from_sources
    rw [hs rep hne, hcr rep hne]

lemma analyze_with_callback_eq (evalP : Pt → Option PointResult)
    (on_progress : Option (PointResult → Except String Unit)) (p : Pt) :
    analyze_with_callback evalP on_progress p = evalP p := by
  unfold analyze_with_callback
  cases evalP p with
  | none => rfl
  | some result =>
    cases on_progress with
    | none => rfl
    | some sink => cases hs : sink result <;> simp [hs]

/-- C10: a progress sink that raises is inert. Wrapping the point task in
`analyze_with_callback` with any sink (including one that raises on every
result) changes neither any point's cached result nor the batch output:
the exception is caught inside the wrapper and the result is still
returned, so the batch equals the no-sink batch. -/
theorem c10_sink_exception_isolated :
    (∀ (evalP : Pt → Option PointResult)
        (on_progress : Option (PointResult → Except String Unit)) (p : Pt),
      analyze_with_callback evalP on_progress p = evalP p)
    ∧ (∀ (evalP : Pt → Option PointResult)
        (on_progress : Option (PointResult → Except String Unit))
        (ups : List ((ℤ × ℤ) × Pt)),
      results_cache (analyze_with_callback evalP on_progress) ups =
        results_cache evalP ups)
    ∧ (∀ (dist : Pt → Pt → ℚ) (evalP : Pt → Option PointResult)
        (on_progress : Option (PointResult → Except String Unit))
        (routes : List Route),
      analyze_routes_batch_with_sink dist evalP on_progress routes =
        analyze_routes_batch dist evalP routes) := by
  have hcache : ∀ (evalP : Pt → Option PointResult)
      (on_progress : Option (PointResult → Except String Unit))
      (ups : List ((ℤ × ℤ) × Pt)),
      results_cache (analyze_with_callback evalP on_progress) ups =
        results_cache evalP ups := by
    intro evalP on_progress ups
    induction ups with
    | nil => rfl
    | cons kv rest ih =>
      rw [results_cache_cons, results_cache_cons, analyze_with_callback_eq, ih]
  refine ⟨analyze_with_callback_eq, hcache, ?_⟩
  intro dist evalP on_progress routes
  unfold analyze_routes_batch_with_sink analyze_routes_batch
  dsimp only
  rw [hcache]

lemma score_routes_length (dist : Pt → Pt → ℚ) (cache : List ((ℤ × ℤ) × PointResult))
    (routes : List Route) :
    (score_routes dist cache routes).length =
      routes.countP (fun r => !(get_sampling_points dist r).isEmpty) := by
  induction routes with
  | nil => rfl
  | cons r rest ih =>
    rw [score_routes, List.countP_cons]
    by_cases h : (get_sampling_points dist r).isEmpty <;> simp [h, ih]

lemma results_cache_all_none {evalP : Pt → Option PointResult}
    (h : ∀ p, evalP p = none) (ups : List ((ℤ × ℤ) × Pt)) :
    results_cache evalP ups = [] := by
  induction ups with
  | nil => rfl
  | cons kv rest ih =>
    rw [results_cache_cons, h kv.2]
    exact ih

lemma route_min_details_nil_cache (sampled_points : List Pt) :
    route_min_details [] sampled_points = (100, []) := by
  unfold route_min_details
  have hgen : ∀ (l : List Pt) (acc : ℚ × List PointResult),
      List.foldl (rmdStep []) acc l = acc := by
    intro l
    induction l with
    | nil => intro acc; rfl
    | cons p rest ih => intro acc; rw [List.foldl_cons]; exact ih _
  exact hgen _ _

lemma mem_score_routes {dist : Pt → Pt → ℚ} {cache : List ((ℤ × ℤ) × PointResult)}
    {routes : List Route} {er : EvaluatedRoute}
    (h : er ∈ score_routes dist cache routes) :
    ∃ r ∈ routes, get_sampling_points dist r ≠ [] ∧
      er = evaluated_route_of cache r (get_sampling_points dist r) := by
  induction routes with
  | nil => simp [score_routes] at h
  | cons r rest ih =>
    rw [score_routes] at h
    split_ifs at h with hemp
    · obtain ⟨r', hr', hne, heq⟩ := ih h
      exact ⟨r', List.mem_cons_of_mem _ hr', hne, heq⟩
    · rcases List.mem_cons.mp h with rfl | h'
      · exact ⟨r, List.mem_cons_self _ _, by simpa [List.isEmpty_iff] using hemp, rfl⟩
      · obtain ⟨r', hr', hne, heq⟩ := ih h'
        exact ⟨r', List.mem_cons_of_mem _ hr', hne, heq⟩

lemma score_routes_all_empty {dist : Pt → Pt → ℚ} (cache : List ((ℤ × ℤ) × PointResult))
    {routes : List Route} (h : ∀ r ∈ routes, get_sampling_points dist r = []) :
    score_routes dist cache routes = [] := by
  induction routes with
  | nil => rfl
  | cons r rest ih =>
    rw [score_routes]
    have hr : (get_sampling_points dist r).isEmpty = true := by
      simp [h r (List.mem_cons_self _ _)]
    simp only [hr, if_true]
    exact ih (fun r' hr' => h r' (List.mem_cons_of_mem _ hr'))

/-- A zero-distance stub for the external geodesic distance (any route
polyline then contributes only its start point to the sampling). -/
def distZero : Pt → Pt → ℚ := fun _ _ => 0

/-- A point-evaluation task that fails (raises) at every point: every
entry of `asyncio.gather(..., return_exceptions=True)` is an exception,
so the results cache stays empty. -/
def evalNone : Pt → Option PointResult := fun _ => none

/-- Concrete counterexample route for C1: a one-point polyline, so it has
exactly one sampled point. -/
def c1Route : Route := { summary := "r0", overview_polyline := some [⟨35, 139⟩] }

/-- What the batch analyzer actually produces for `c1Route` when every
point evaluation fails: the route is kept with a bottleneck score of 100
and no details. -/
def c1Evaluated : EvaluatedRoute :=
  { summary := "r0", overview_polyline := some [⟨35, 139⟩],
    risk_analysis := { score := 100, details := [], risk_factors := [] },
    score := 100 }

/-- C1 counterexample: a route whose single sampled point's evaluation
failed (a cache miss for its only point) is NOT excluded from the
ranking: the batch returns it with score 100, and route selection
happily selects it instead of failing with "no viable route". -/
theorem c1_counterexample_failed_route_kept :
    evalNone ⟨35, 139⟩ = none
    ∧ get_sampling_points distZero c1Route = [⟨35, 139⟩]
    ∧ analyze_routes_batch distZero evalNone [c1Route] = [c1Evaluated]
    ∧ select_best_route (analyze_routes_batch distZero evalNone [c1Route])
        = some c1Evaluated := by
  have hsamp : get_sampling_points distZero c1Route = [(⟨35, 139⟩ : Pt)] := rfl
  have hcache : results_cache evalNone
      (unique_points (all_sampled_points distZero [c1Route])) = [] :=
    results_cache_all_none (fun _ => rfl) _
  have hbatch : analyze_routes_batch distZero evalNone [c1Route] = [c1Evaluated] := by
    unfold analyze_routes_batch
    dsimp only
    rw [hcache, score_routes, hsamp]
    simp [score_routes, evaluated_route_of, route_min_details_nil_cache,
      route_risk_factors, c1Evaluated, c1Route]
  refine ⟨rfl, hsamp, hbatch, ?_⟩
  rw [hbatch]
  rfl

/-- C1 amended: only routes with an empty sampled-point list (missing
polyline or empty decoded path) are excluded from the batch ranking. A
route with sample points but a result-cache miss for every one of them
is still ranked, with bottleneck score 100 and empty details; the
"No valid routes after analysis" failure occurs exactly when every route
has an empty sample list, not when every evaluation fails. -/
theorem c1_amended_exclusion :
    (∀ (dist : Pt → Pt → ℚ) (evalP : Pt → Option PointResult) (routes : List Route),
      (analyze_routes_batch dist evalP routes).length =
        routes.countP (fun r => !(get_sampling_points dist r).isEmpty))
    ∧ (∀ (dist : Pt → Pt → ℚ) (evalP : Pt → Option PointResult) (routes : List Route),
        (∀ p, evalP p = none) →
        ∀ er ∈ analyze_routes_batch dist evalP routes,
          er.score = 100 ∧ er.risk_analysis.details = [])
    ∧ (∀ (dist : Pt → Pt → ℚ) (evalP : Pt → Option PointResult) (routes : List Route),
        (∀ r ∈ routes, get_sampling_points dist r = []) →
        analyze_routes_batch dist evalP routes = []
        ∧ select_best_route (analyze_routes_batch dist evalP routes) = none) := by
  refine ⟨?_, ?_, ?_⟩
  · intro dist evalP routes
    unfold analyze_routes_batch
    dsimp only
    exact score_routes_length _ _ _
  · intro dist evalP routes hfail er her
    unfold analyze_routes_batch at her
    dsimp only at her
    rw [results_cache_all_none hfail] at her
    obtain ⟨r, _, _, heq⟩ := mem_score_routes her
    subst heq
    simp [evaluated_route_of, route_min_details_nil_cache]
  · intro dist evalP routes hempty
    have hb : analyze_routes_batch dist evalP routes = [] := by
      unfold analyze_routes_batch
      dsimp only
      exact score_routes_all_empty _ hempty
    exact ⟨hb, by rw [hb]; rfl⟩

lemma rmd_fst_le (cache : List ((ℤ × ℤ) × PointResult)) (sampled : List Pt) :
    ∀ acc : ℚ × List PointResult,
      (List.foldl (rmdStep cache) acc sampled).1 ≤ acc.1 := by
  induction sampled with
  | nil => intro acc; exact le_refl _
  | cons p rest ih =>
    intro acc
    rw [List.foldl_cons]
    refine le_trans (ih _) ?_
    unfold rmdStep
    cases assocLookup cache (point_key p) with
    | none => exact le_refl _
    | some result =>
      dsimp only
      split_ifs with h
      · exact le_of_lt h
      · exact le_refl _

lemma rmd_snd_ext (cache : List ((ℤ × ℤ) × PointResult)) (sampled : List Pt) :
    ∀ acc : ℚ × List PointResult,
      ∃ tl, (List.foldl (rmdStep cache) acc sampled).2 = acc.2 ++ tl := by
  induction sampled with
  | nil => intro acc; exact ⟨[], (List.append_nil _).symm⟩
  | cons p rest ih =>
    intro acc
    rw [List.foldl_cons]
    cases h : assocLookup cache (point_key p) with
    | none =>
      have hstep : rmdStep cache acc p = acc := by unfold rmdStep; rw [h]
      rw [hstep]
      exact ih acc
    | some result =>
      have hstep : rmdStep cache acc p =
          ((if result.score < acc.1 then result.score else acc.1), acc.2 ++ [result]) := by
        unfold rmdStep; rw [h]
      rw [hstep]
      obtain ⟨tl, htl⟩ := ih ((if result.score < acc.1 then result.score else acc.1),
        acc.2 ++ [result])
      exact ⟨[result] ++ tl, by rw [htl]; simp⟩

lemma rmd_fst_cases (cache : List ((ℤ × ℤ) × PointResult)) (sampled : List Pt) :
    ∀ acc : ℚ × List PointResult,
      (List.foldl (rmdStep cache) acc sampled).1 = acc.1 ∨
      ∃ d ∈ (List.foldl (rmdStep cache) acc sampled).2,
        (List.foldl (rmdStep cache) acc sampled).1 = d.score := by
  induction sampled with
  | nil => intro acc; exact Or.inl rfl
  | cons p rest ih =>
    intro acc
    rw [List.foldl_cons]
    cases h : assocLookup cache (point_key p) with
    | none =>
      have hstep : rmdStep cache acc p = acc := by unfold rmdStep; rw [h]
      rw [hstep]
      exact ih acc
    | some result =>
      have hstep : rmdStep cache acc p =
          ((if result.score < acc.1 then result.score else acc.1), acc.2 ++ [result]) := by
        unfold rmdStep; rw [h]
      rw [hstep]
      rcases ih ((if result.score < acc.1 then result.score else acc.1),
        acc.2 ++ [result]) with h1 | h2
      · by_cases hlt : result.score < acc.1
        · right
          obtain ⟨tl, htl⟩ := rmd_snd_ext cache rest
            ((if result.score < acc.1 then result.score else acc.1), acc.2 ++ [result])
          refine ⟨result, ?_, ?_⟩
          · rw [htl]; simp
          · rw [h1]; simp [hlt]
        · left
          rw [h1]
          simp [hlt]
      · right
        exact h2

lemma rmd_fst_le_scores (cache : List ((ℤ × ℤ) × PointResult)) (sampled : List Pt) :
    ∀ (acc : ℚ × List PointResult) (d : PointResult),
      d ∈ (List.foldl (rmdStep cache) acc sampled).2 →
      (List.foldl (rmdStep cache) acc sampled).1 ≤ d.score ∨ d ∈ acc.2 := by
  induction sampled with
  | nil => intro acc d hd; exact Or.inr hd
  | cons p rest ih =>
    intro acc d hd
    rw [List.foldl_cons] at hd ⊢
    cases h : assocLookup cache (point_key p) with
    | none =>
      have hstep : rmdStep cache acc p = acc := by unfold rmdStep; rw [h]
      rw [hstep] at hd ⊢
      exact ih acc d hd
    | some result =>
      have hstep : rmdStep cache acc p =
          ((if result.score < acc.1 then result.score else acc.1), acc.2 ++ [result]) := by
        unfold rmdStep; rw [h]
      rw [hstep] at hd ⊢
      rcases ih ((if result.score < acc.1 then result.score else acc.1),
        acc.2 ++ [result]) d hd with h1 | h2
      · exact Or.inl h1
      · rcases List.mem_append.mp h2 with h3 | h3
        · exact Or.inr h3
        · left
          obtain rfl := List.mem_singleton.mp h3
          refine le_trans (rmd_fst_le cache rest _) ?_
          dsimp only
          split_ifs with hlt
          · exact le_refl _
          · exact le_of_not_lt hlt

lemma rmd_mem_cache (cache : List ((ℤ × ℤ) × PointResult)) (sampled : List Pt) :
    ∀ (acc : ℚ × List PointResult) (d : PointResult),
      d ∈ (List.foldl (rmdStep cache) acc sampled).2 →
      d ∈ acc.2 ∨ ∃ key, assocLookup cache key = some d := by
  induction sampled with
  | nil => intro acc d hd; exact Or.inl hd
  | cons p rest ih =>
    intro acc d hd
    rw [List.foldl_cons] at hd
    cases h : assocLookup cache (point_key p) with
    | none =>
      have hstep : rmdStep cache acc p = acc := by unfold rmdStep; rw [h]
      rw [hstep] at hd
      exact ih acc d hd
    | some result =>
      have hstep : rmdStep cache acc p =
          ((if result.score < acc.1 then result.score else acc.1), acc.2 ++ [result]) := by
        unfold rmdStep; rw [h]
      rw [hstep] at hd
      rcases ih ((if result.score < acc.1 then result.score else acc.1),
        acc.2 ++ [result]) d hd with h1 | h2
      · rcases List.mem_append.mp h1 with h3 | h3
        · exact Or.inl h3
        · obtain rfl := List.mem_singleton.mp h3
          exact Or.inr ⟨point_key p, h⟩
      · exact Or.inr h2

lemma results_cache_score_le {evalP : Pt → Option PointResult}
    {ups : List ((ℤ × ℤ) × Pt)} (h : ∀ p r, evalP p = some r → r.score ≤ 100) :
    ∀ kv ∈ results_cache evalP ups, kv.2.score ≤ 100 := by
  intro kv hkv
  rw [results_cache] at hkv
  obtain ⟨a, _, hfa⟩ := List.mem_filterMap.mp hkv
  cases he : evalP a.2 with
  | none => rw [he] at hfa; exact absurd hfa (by simp)
  | some r =>
    rw [he] at hfa
    have hkv2 : (a.1, r) = kv := by simpa using hfa
    rw [← hkv2]
    exact h a.2 r he

/-- The returned point score never exceeds 100 (the final clamp). -/
lemma asp_score_le (is_emergency_mode : Bool) (active_alerts : List String)
    (srcs : Sources) (point : Pt) :
    (analyze_single_point is_emergency_mode active_alerts srcs point).1.score ≤ 100 := by
  unfold analyze_single_point
  dsimp only
  split_ifs <;> linarith

/-- C5: bottleneck aggregation. For every route kept by the batch with a
non-empty details list, the assessment score is exactly the minimum of
its details' scores (it is one of them and bounds them all below), and
the duplicated top-level `score` equals `risk_analysis.score`. The score
hypothesis (cached results never exceed 100) is discharged for the real
point task in the second conjunct: `_analyze_single_point` clamps to
[0,100]. -/
theorem c5_bottleneck_min :
    (∀ (dist : Pt → Pt → ℚ) (evalP : Pt → Option PointResult) (routes : List Route),
      (∀ p r, evalP p = some r → r.score ≤ 100) →
      ∀ er ∈ analyze_routes_batch dist evalP routes,
        er.risk_analysis.details ≠ [] →
        er.score = er.risk_analysis.score
        ∧ er.score ∈ er.risk_analysis.details.map (·.score)
        ∧ ∀ d ∈ er.risk_analysis.details, er.score ≤ d.score)
    ∧ (∀ (em : Bool) (alerts : List String) (srcsOf : Pt → Sources) (crashes : Pt → Bool)
        (p : Pt) (r : PointResult),
        eval_from_sources em alerts srcsOf crashes p = some r → r.score ≤ 100) := by
  constructor
  · intro dist evalP routes hbound er her hne
    unfold analyze_routes_batch at her
    dsimp only at her
    obtain ⟨r, _, _, heq⟩ := mem_score_routes her
    subst heq
    simp only [evaluated_route_of] at hne ⊢
    constructor
    · trivial
    · have hcb : ∀ kv ∈ results_cache evalP (unique_points (all_sampled_points dist routes)),
          kv.2.score ≤ 100 := results_cache_score_le hbound
      have hd100 : ∀ d ∈ (route_min_details
          (results_cache evalP (unique_points (all_sampled_points dist routes)))
          (get_sampling_points dist r)).2, d.score ≤ 100 := by
        intro d hd
        rcases rmd_mem_cache _ _ _ d hd with h | ⟨key, hkey⟩
        · simp at h
        · exact hcb (key, d) (assocLookup_mem hkey)
      have hles : ∀ d ∈ (route_min_details
          (results_cache evalP (unique_points (all_sampled_points dist routes)))
          (get_sampling_points dist r)).2,
          (route_min_details
            (results_cache evalP (unique_points (all_sampled_points dist routes)))
            (get_sampling_points dist r)).1 ≤ d.score := by
        intro d hd
        rcases rmd_fst_le_scores _ _ _ d hd with h | h
        · exact h
        · simp at h
      refine ⟨?_, hles⟩
      rcases rmd_fst_cases
        (results_cache evalP (unique_points (all_sampled_points dist routes)))
        (get_sampling_points dist r) (100, []) with h1 | h2
      · obtain ⟨d0, hd0⟩ := List.exists_mem_of_ne_nil _ hne
        have h100 : d0.score = 100 := le_antisymm (hd100 d0 hd0) (by
          have := hles d0 hd0
          rw [route_min_details] at this
          rw [h1] at this
          exact this)
        refine List.mem_map.mpr ⟨d0, hd0, ?_⟩
        rw [h100, route_min_details, h1]
      · obtain ⟨d, hd, hds⟩ := h2
        exact List.mem_map.mpr ⟨d, hd, hds.symm⟩
  · intro em alerts srcsOf crashes p r h
    unfold eval_from_sources at h
    by_cases hc : crashes p = true
    · rw [if_pos hc] at h
      exact absurd h (by simp)
    · rw [if_neg hc] at h
      obtain rfl := Option.some_injective _ h
      exact asp_score_le em alerts (srcsOf p) p

lemma segLoop_zero (p1 p2 : Pt) (segment_dist interval_meters : ℚ)
    (remaining progress buffer dtn : ℚ) :
    segLoop p1 p2 segment_dist interval_meters 0 remaining progress buffer dtn =
      ([], buffer + remaining) := rfl

lemma segLoop_succ (p1 p2 : Pt) (segment_dist interval_meters : ℚ) (fuel : ℕ)
    (remaining progress buffer dtn : ℚ) :
    segLoop p1 p2 segment_dist interval_meters (fuel + 1) remaining progress buffer dtn =
      if dtn ≤ remaining then
        (interp p1 p2 ((progress + dtn) / segment_dist) ::
          (segLoop p1 p2 segment_dist interval_meters fuel (remaining - dtn)
            (progress + dtn) 0 interval_meters).1,
         (segLoop p1 p2 segment_dist interval_meters fuel (remaining - dtn)
            (progress + dtn) 0 interval_meters).2)
      else ([], buffer + remaining) := rfl

lemma segLoop_exit (p1 p2 : Pt) (segment_dist interval_meters : ℚ) (fuel : ℕ)
    (remaining progress buffer dtn : ℚ) (h : ¬ dtn ≤ remaining) :
    segLoop p1 p2 segment_dist interval_meters fuel remaining progress buffer dtn =
      ([], buffer + remaining) := by
  cases fuel with
  | zero => rfl
  | succ n => rw [segLoop_succ, if_neg h]

lemma interp_one (p q : Pt) : interp p q 1 = q := by
  cases q
  simp only [interp, Pt.mk.injEq]
  constructor <;> ring

/-- A path whose consecutive geodesic distances all equal the sampling
interval is resampled to itself: every original point is emitted. -/
lemma resample_const_interval (interval_meters : ℚ) (hI : 0 < interval_meters) :
    ∀ pts : List Pt,
      resample_path (fun _ _ => interval_meters) pts interval_meters = pts := by
  have haux : ∀ pts : List Pt,
      resamplePathAux (fun _ _ => interval_meters) interval_meters pts 0 = pts.tail := by
    intro pts
    induction pts with
    | nil => rfl
    | cons p1 tail ih =>
      cases tail with
      | nil => rfl
      | cons p2 rest =>
        rw [resamplePathAux]
        dsimp only
        rw [if_neg hI.ne']
        rw [segLoop_succ, if_pos (by simp)]
        simp only [sub_zero, sub_self, zero_add]
        rw [segLoop_exit _ _ _ _ _ _ _ _ _ (not_le.mpr hI)]
        simp only [add_zero, div_self hI.ne', interp_one]
        rw [ih]
        rfl
  intro pts
  cases pts with
  | nil => rfl
  | cons p tail =>
    rw [resample_path, haux]
    rfl

/-- Constant geodesic distance of exactly one sampling interval between
any two points: a three-point polyline then samples to its three points. -/
def dist100 : Pt → Pt → ℚ := fun _ _ => 100

def p90 : Pt := ⟨35, 139⟩

def p40 : Pt := ⟨36, 139⟩

def p70 : Pt := ⟨37, 139⟩

def res90 : PointResult :=
  { lat := 35, lng := 139, score := 90, risks := [], image_url := none, atmosphere := none }

def res40 : PointResult :=
  { lat := 36, lng := 139, score := 40, risks := [], image_url := none, atmosphere := none }

def res70 : PointResult :=
  { lat := 37, lng := 139, score := 70, risks := [], image_url := none, atmosphere := none }

/-- A point task giving the three sampled points scores 90, 40 and 70. -/
def c5Eval : Pt → Option PointResult := fun p =>
  if p = p90 then some res90
  else if p = p40 then some res40
  else if p = p70 then some res70
  else none

def c5Route : Route := { summary := "c5", overview_polyline := some [p90, p40, p70] }

/-- The batch output for `c5Route`: bottleneck score 40 over details
scoring [90, 40, 70]. -/
def c5ER : EvaluatedRoute :=
  { summary := "c5", overview_polyline := some [p90, p40, p70],
    risk_analysis := { score := 40, details := [res90, res40, res70], risk_factors := [] },
    score := 40 }

lemma c5_sampled : get_sampling_points dist100 c5Route = [p90, p40, p70] :=
  resample_const_interval 100 (by norm_num) [p90, p40, p70]

lemma c5_keys : point_key p90 = (350000, 1390000) ∧ point_key p40 = (360000, 1390000)
    ∧ point_key p70 = (370000, 1390000) := by
  refine ⟨?_, ?_, ?_⟩ <;> norm_num [point_key, p90, p40, p70, round_eq]

lemma c5_cache : results_cache c5Eval (unique_points (all_sampled_points dist100 [c5Route])) =
    [((350000, 1390000), res90), ((360000, 1390000), res40), ((370000, 1390000), res70)] := by
  obtain ⟨hk90, hk40, hk70⟩ := c5_keys
  have hall : all_sampled_points dist100 [c5Route] = [p90, p40, p70] := by
    simp [all_sampled_points, c5_sampled]
  have hne1 : p40 ≠ p90 := by norm_num [p40, p90, Pt.mk.injEq]
  have hne2 : p70 ≠ p90 := by norm_num [p70, p90, Pt.mk.injEq]
  have hne3 : p70 ≠ p40 := by norm_num [p70, p40, Pt.mk.injEq]
  have huniq : unique_points [p90, p40, p70] =
      [((350000, 1390000), p90), ((360000, 1390000), p40), ((370000, 1390000), p70)] := by
    simp [unique_points, uniqStep, List.foldl_cons, List.foldl_nil, hk90, hk40, hk70]
  rw [hall, huniq]
  simp [results_cache, List.filterMap_cons, c5Eval, hne1, hne2, hne3]

lemma c5_batch : analyze_routes_batch dist100 c5Eval [c5Route] = [c5ER] := by
  obtain ⟨hk90, hk40, hk70⟩ := c5_keys
  unfold analyze_routes_batch
  dsimp only
  rw [c5_cache, score_routes]
  rw [c5_sampled]
  have hrmd : route_min_details
      [((350000, 1390000), res90), ((360000, 1390000), res40), ((370000, 1390000), res70)]
      [p90, p40, p70] = (40, [res90, res40, res70]) := by
    unfold route_min_details
    rw [List.foldl_cons, List.foldl_cons, List.foldl_cons, List.foldl_nil]
    norm_num [rmdStep, assocLookup, hk90, hk40, hk70, res90, res40, res70]
  have hrf : route_risk_factors [res90, res40, res70] = [] := by
    simp [route_risk_factors, res90, res40, res70]
  simp [score_routes, evaluated_route_of, hrmd, hrf, c5ER, c5Route]

/-- C5 witness: the concrete route with points scoring [90, 40, 70] gets
bottleneck score 40, and the bottleneck theorem applies to it. -/
theorem c5_bottleneck_min_witness :
    (∀ p r, c5Eval p = some r → r.score ≤ 100)
    ∧ analyze_routes_batch dist100 c5Eval [c5Route] = [c5ER]
    ∧ c5ER.risk_analysis.details.map (·.score) = [90, 40, 70]
    ∧ c5ER.score = 40
    ∧ (c5ER.score = c5ER.risk_analysis.score
       ∧ c5ER.score ∈ c5ER.risk_analysis.details.map (·.score)
       ∧ ∀ d ∈ c5ER.risk_analysis.details, c5ER.score ≤ d.score) := by
  have hbound : ∀ p r, c5Eval p = some r → r.score ≤ 100 := by
    intro p r h
    unfold c5Eval at h
    split_ifs at h
    all_goals try (obtain rfl := Option.some_injective _ h; norm_num [res90, res40, res70])
  refine ⟨hbound, c5_batch, rfl, rfl,
    c5_bottleneck_min.1 dist100 c5Eval [c5Route] hbound c5ER ?_ ?_⟩
  · rw [c5_batch]
    exact List.mem_singleton.mpr rfl
  · simp [c5ER]

lemma sort_head_spec : ∀ (l : List EvaluatedRoute), l ≠ [] →
    ∃ (b : EvaluatedRoute) (i : ℕ) (hi : i < l.length),
      (sort_by_score_desc l).head? = some b
      ∧ l.get ⟨i, hi⟩ = b
      ∧ (∀ y ∈ l, y.score ≤ b.score)
      ∧ (∀ j (hj : j < i), (l.get ⟨j, Nat.lt_trans hj hi⟩).score < b.score) := by
  intro l
  induction l with
  | nil => intro h; exact absurd rfl h
  | cons x xs ih =>
    intro _
    by_cases hx : xs = []
    · subst hx
      refine ⟨x, 0, by simp, rfl, rfl, ?_, ?_⟩
      · intro y hy
        obtain rfl := List.mem_singleton.mp hy
        exact le_refl _
      · intro j hj
        exact absurd hj (Nat.not_lt_zero j)
    · obtain ⟨b, i, hi, hhead, hget, hbound, hstrict⟩ := ih hx
      obtain ⟨tail, htail⟩ : ∃ t, sort_by_score_desc xs = b :: t := by
        cases hs : sort_by_score_desc xs with
        | nil => rw [hs] at hhead; exact absurd hhead (by simp)
        | cons a t =>
          rw [hs] at hhead
          obtain rfl := Option.some_injective _ hhead.symm
          exact ⟨t, rfl⟩
      rw [show sort_by_score_desc (x :: xs) = insort x (sort_by_score_desc xs) from rfl,
        htail, insort]
      by_cases hcmp : b.score ≤ x.score
      · rw [if_pos hcmp]
        refine ⟨x, 0, by simp, rfl, rfl, ?_, ?_⟩
        · intro y hy
          rcases List.mem_cons.mp hy with rfl | hy'
          · exact le_refl _
          · exact le_trans (hbound y hy') hcmp
        · intro j hj
          exact absurd hj (Nat.not_lt_zero j)
      · rw [if_neg hcmp]
        push_neg at hcmp
        refine ⟨b, i + 1, Nat.succ_lt_succ hi, rfl, by simpa using hget, ?_, ?_⟩
        · intro y hy
          rcases List.mem_cons.mp hy with rfl | hy'
          · exact le_of_lt hcmp
          · exact hbound y hy'
        · intro j hj
          cases j with
          | zero => simpa using hcmp
          | succ j' =>
            have := hstrict j' (Nat.lt_of_succ_lt_succ hj)
            simpa using this

/-- C9: best-route selection picks the earliest route attaining the
maximum bottleneck score: `sort(key=score, reverse=True)` is stable, so
the selected route both bounds every route's score from above and is
strictly better than every route before it in the input order. -/
theorem c9_best_route_stable_max :
    ∀ (evaluated_routes : List EvaluatedRoute), evaluated_routes ≠ [] →
      ∃ (best : EvaluatedRoute) (i : ℕ) (hi : i < evaluated_routes.length),
        select_best_route evaluated_routes = some best
        ∧ evaluated_routes.get ⟨i, hi⟩ = best
        ∧ (∀ y ∈ evaluated_routes, y.score ≤ best.score)
        ∧ (∀ j (hj : j < i),
            (evaluated_routes.get ⟨j, Nat.lt_trans hj hi⟩).score < best.score) := by
  intro l hne
  obtain ⟨b, i, hi, hhead, hget, hbound, hstrict⟩ := sort_head_spec l hne
  have hsel : select_best_route l = (sort_by_score_desc l).head? := by
    unfold select_best_route
    cases sort_by_score_desc l <;> rfl
  exact ⟨b, i, hi, by rw [hsel, hhead], hget, hbound, hstrict⟩

/-- Tied routes for the C9 witness: both score 55, different summaries. -/
def erA : EvaluatedRoute :=
  { summary := "A", overview_polyline := none,
    risk_analysis := { score := 55, details := [], risk_factors := [] }, score := 55 }

def erB : EvaluatedRoute :=
  { summary := "B", overview_polyline := none,
    risk_analysis := { score := 55, details := [], risk_factors := [] }, score := 55 }

/-- C9 witness: with two routes tied at score 55, the earlier one (`erA`)
is selected. -/
theorem c9_best_route_stable_max_witness :
    ([erA, erB] : List EvaluatedRoute) ≠ []
    ∧ erA.score = 55 ∧ erB.score = 55 ∧ erA ≠ erB
    ∧ select_best_route [erA, erB] = some erA
    ∧ (∃ (best : EvaluatedRoute) (i : ℕ) (hi : i < ([erA, erB] : List EvaluatedRoute).length),
        select_best_route [erA, erB] = some best
        ∧ ([erA, erB] : List EvaluatedRoute).get ⟨i, hi⟩ = best
        ∧ (∀ y ∈ ([erA, erB] : List EvaluatedRoute), y.score ≤ best.score)
        ∧ (∀ j (hj : j < i),
            (([erA, erB] : List EvaluatedRoute).get ⟨j, Nat.lt_trans hj hi⟩).score
              < best.score)) := by
  have hsel : select_best_route [erA, erB] = some erA := by
    have h55 : erB.score ≤ erA.score := le_refl _
    unfold select_best_route sort_by_score_desc
    rw [List.foldr_cons, List.foldr_cons, List.foldr_nil, insort, insort, if_pos h55]
  refine ⟨by simp, rfl, rfl, ?_, hsel,
    c9_best_route_stable_max [erA, erB] (by simp)⟩
  intro h
  have := congrArg (fun er => er.summary) h
  simp [erA, erB] at this

/-- Every point the sampling loop emits on one segment is a linear
interpolation between the segment's endpoints with ratio in [0,1]. The
invariant `progress + remaining = segment_dist` holds on entry
(`progress = 0`, `remaining = segment_dist`) and is preserved. -/
lemma segLoop_mem (p1 p2 : Pt) (segment_dist interval_meters : ℚ)
    (hseg : 0 < segment_dist) (hI : 0 < interval_meters) :
    ∀ (fuel : ℕ) (remaining progress buffer dtn : ℚ),
      progress + remaining = segment_dist → 0 ≤ progress → 0 < dtn →
      ∀ q ∈ (segLoop p1 p2 segment_dist interval_meters fuel remaining progress buffer dtn).1,
        ∃ r : ℚ, 0 ≤ r ∧ r ≤ 1 ∧ q = interp p1 p2 r := by
  intro fuel
  induction fuel with
  | zero =>
    intro remaining progress buffer dtn _ _ _ q hq
    simp [segLoop_zero] at hq
  | succ n ih =>
    intro remaining progress buffer dtn hinv hprog hdtn q hq
    rw [segLoop_succ] at hq
    split_ifs at hq with hc
    · rcases List.mem_cons.mp hq with rfl | hq'
      · refine ⟨(progress + dtn) / segment_dist, ?_, ?_, rfl⟩
        · exact div_nonneg (by linarith) hseg.le
        · rw [div_le_one hseg]
          linarith
      · exact ih (remaining - dtn) (progress + dtn) 0 interval_meters
          (by linarith) (by linarith) hI q hq'
    · simp at hq

/-- With enough fuel to cover `buffer + remaining` in interval-sized
steps, the loop's final distance buffer lies in `[0, interval)`. The
invariant `buffer + dtn = interval` holds on entry
(`dtn = interval − buffer`) and is re-established after each emission
(`buffer = 0`, `dtn = interval`). -/
lemma segLoop_buffer (p1 p2 : Pt) (segment_dist interval_meters : ℚ)
    (hI : 0 < interval_meters) :
    ∀ (fuel : ℕ) (remaining progress buffer dtn : ℚ),
      0 ≤ buffer → 0 ≤ remaining → 0 < dtn → buffer + dtn = interval_meters →
      buffer + remaining < (fuel : ℚ) * interval_meters →
      0 ≤ (segLoop p1 p2 segment_dist interval_meters fuel remaining progress buffer dtn).2
      ∧ (segLoop p1 p2 segment_dist interval_meters fuel remaining progress buffer dtn).2
        < interval_meters := by
  intro fuel
  induction fuel with
  | zero =>
    intro remaining progress buffer dtn hb hr _ _ hf
    exfalso
    push_cast at hf
    linarith
  | succ n ih =>
    intro remaining progress buffer dtn hb hr hd hbd hf
    push_cast at hf
    rw [segLoop_succ]
    split_ifs with hc
    · refine ih (remaining - dtn) (progress + dtn) 0 interval_meters le_rfl
        (by linarith) hI (by ring) ?_
      linarith
    · constructor
      · dsimp only
        linarith
      · dsimp only
        linarith [not_le.mp hc]

/-- The fuel passed by `resamplePathAux` strictly covers the virtual
distance `buffer + segment_dist`. -/
lemma fuel_covers (interval_meters : ℚ) (hI : 0 < interval_meters) (x : ℚ) :
    x < (((⌈x / interval_meters⌉).toNat + 1 : ℕ) : ℚ) * interval_meters := by
  have h1 : x / interval_meters ≤ ((⌈x / interval_meters⌉ : ℤ) : ℚ) := Int.le_ceil _
  have h2 : ((⌈x / interval_meters⌉ : ℤ) : ℚ) ≤ (((⌈x / interval_meters⌉).toNat : ℕ) : ℚ) := by
    exact_mod_cast Int.self_le_toNat _
  have h3 : x = (x / interval_meters) * interval_meters := (div_mul_cancel₀ x hI.ne').symm
  have h4 : (x / interval_meters) * interval_meters
      ≤ (((⌈x / interval_meters⌉).toNat : ℕ) : ℚ) * interval_meters :=
    mul_le_mul_of_nonneg_right (le_trans h1 h2) hI.le
  push_cast
  push_cast at h4
  nlinarith

/-- Every point emitted by the segment walk (with an in-range incoming
buffer) interpolates two consecutive input points with ratio in [0,1]. -/
lemma resamplePathAux_mem (dist : Pt → Pt → ℚ) (interval_meters : ℚ)
    (hI : 0 < interval_meters) (hd : ∀ a b, 0 ≤ dist a b) :
    ∀ (pts : List Pt) (buffer : ℚ), 0 ≤ buffer → buffer < interval_meters →
      ∀ q ∈ resamplePathAux dist interval_meters pts buffer,
        ∃ (i : ℕ) (hi : i + 1 < pts.length) (r : ℚ),
          0 ≤ r ∧ r ≤ 1 ∧
          q = interp (pts.get ⟨i, Nat.lt_of_succ_lt hi⟩) (pts.get ⟨i + 1, hi⟩) r := by
  intro pts
  induction pts with
  | nil => intro buffer _ _ q hq; simp [resamplePathAux] at hq
  | cons p1 tail ih =>
    cases tail with
    | nil => intro buffer _ _ q hq; simp [resamplePathAux] at hq
    | cons p2 rest =>
      intro buffer hb0 hbI q hq
      rw [resamplePathAux] at hq
      dsimp only at hq
      by_cases hz : dist p1 p2 = 0
      · rw [if_pos hz] at hq
        obtain ⟨i, hi, r, h0, h1, heq⟩ := ih buffer hb0 hbI q hq
        refine ⟨i + 1, by simpa using Nat.succ_lt_succ hi, r, h0, h1, ?_⟩
        simpa using heq
      · rw [if_neg hz] at hq
        have hseg : 0 < dist p1 p2 := lt_of_le_of_ne (hd p1 p2) (Ne.symm hz)
        have hfc : buffer + dist p1 p2 <
            ((((⌈(buffer + dist p1 p2) / interval_meters⌉).toNat + 1 : ℕ)) : ℚ)
              * interval_meters :=
          fuel_covers interval_meters hI _
        rcases List.mem_append.mp hq with hq1 | hq2
        · obtain ⟨r, h0, h1, heq⟩ := segLoop_mem p1 p2 (dist p1 p2) interval_meters hseg hI
            _ (dist p1 p2) 0 buffer (interval_meters - buffer)
            (by ring) le_rfl (by linarith) q hq1
          exact ⟨0, by simp, r, h0, h1, heq⟩
        · have hbuf := segLoop_buffer p1 p2 (dist p1 p2) interval_meters hI
            _ (dist p1 p2) 0 buffer (interval_meters - buffer)
            hb0 hseg.le (by linarith) (by ring) hfc
          obtain ⟨i, hi, r, h0, h1, heq⟩ := ih _ hbuf.1 hbuf.2 q hq2
          exact ⟨i + 1, by simpa using Nat.succ_lt_succ hi, r, h0, h1, by simpa using heq⟩

/-- C8: the geodesic resampler. An empty path resamples to an empty
output; a non-empty path's first output point is its first input point;
every output point besides the first is a linear interpolation between
two consecutive input points with ratio in [0,1] (given a positive
interval and nonnegative distances); and a zero-length segment is
skipped without emitting a point or changing the distance buffer. -/
theorem c8_resample_interpolation :
    ∀ (dist : Pt → Pt → ℚ) (interval_meters : ℚ) (points : List Pt),
      (resample_path dist [] interval_meters = [])
      ∧ (∀ (p : Pt) (ps : List Pt),
          (resample_path dist (p :: ps) interval_meters).head? = some p)
      ∧ (0 < interval_meters → (∀ a b, 0 ≤ dist a b) →
          ∀ q ∈ (resample_path dist points interval_meters).tail,
            ∃ (i : ℕ) (hi : i + 1 < points.length) (r : ℚ),
              0 ≤ r ∧ r ≤ 1 ∧
              q = interp (points.get ⟨i, Nat.lt_of_succ_lt hi⟩) (points.get ⟨i + 1, hi⟩) r)
      ∧ (∀ (p1 p2 : Pt) (rest : List Pt) (buffer : ℚ), dist p1 p2 = 0 →
          resamplePathAux dist interval_meters (p1 :: p2 :: rest) buffer =
            resamplePathAux dist interval_meters (p2 :: rest) buffer) := by
  intro dist interval_meters points
  refine ⟨rfl, fun p ps => rfl, ?_, ?_⟩
  · intro hI hd q hq
    cases points with
    | nil => simp [resample_path] at hq
    | cons p ps =>
      rw [resample_path] at hq
      exact resamplePathAux_mem dist interval_meters hI hd (p :: ps) 0 le_rfl hI q hq
  · intro p1 p2 rest buffer h
    rw [resamplePathAux]
    dsimp only
    rw [if_pos h]

end SafeRouting
